import Mathlib

/-!
gladia-samples: the speech-transcriber recorder and the Twilio relay.

A shallow embedding of the two Go programs of the repository

* `go/go-speech-transcriber/go-speech-transcriber.go` (the desktop recorder), and
* `blogs/twilio-solaria-go/src/main.go` (the Twilio media-stream relay),

followed by theorems about them.

Conventions of the embedding.

* A Go method with a pointer receiver becomes a function from the receiver's
  state to the new state, together with what the call returned and the effects
  it requested (goroutines launched, channel sends, log lines, frames written).
* A method body run under `r.Mutex` is one atomic state transformer.
* `encoding/json`, `encoding/base64`, `strings` and `gorilla/websocket` are
  libraries outside the repository.  A received message is represented by the
  result of scanning its bytes as JSON text (`none` when the bytes are not
  valid JSON); how Go stores such a value into a struct or a map, the standard
  base64 alphabet and `strings.TrimSpace` are written out below.
-/

namespace GladiaSamples

/-! ## JSON values and messages -/

/-- A JSON value, as the scanner of `encoding/json` delivers it.  An object keeps
its members in textual order, duplicates included. -/
inductive Json where
  | null
  | bool (b : Bool)
  | num (literal : String)
  | str (s : String)
  | arr (items : List Json)
  | obj (members : List (String × Json))

/-- The bytes of one received message, represented by their scan as JSON text:
`none` when they are not syntactically valid JSON. -/
abbrev Message := Option Json

/-- The two errors `json.Unmarshal` reports: invalid JSON text, or a JSON value
that does not fit the Go type it is stored into. -/
inductive JsonError where
  | syntaxError
  | unmarshalTypeError
  deriving DecidableEq, Repr

/-- A Go `map[string]interface{}` filled from a JSON object: the member list. -/
abbrev GoMap := List (String × Json)

/-- Indexing `m[key]` of a map decoded from JSON: a later member with the same
key has overwritten an earlier one, so the last occurrence is the stored value. -/
def GoMap.index (m : GoMap) (key : String) : Option Json :=
  (m.reverse.find? (fun kv => kv.1 == key)).map (fun kv => kv.2)

/-- The characters '0' to '9'. -/
def isDigit (c : Char) : Bool := '0' ≤ c && c ≤ '9'

/-- The number written by a list of decimal digits. -/
def digitsValue (cs : List Char) : Nat := cs.foldl (fun n c => 10 * n + (c.toNat - 48)) 0

/-- A JSON number literal (optional minus sign, integer part, optional fraction,
optional exponent) as a mantissa and a decimal exponent: its magnitude is
`mantissa * 10 ^ exponent`. -/
def decimalOf (literal : String) : Nat × Int :=
  let unsigned := match literal.data with
    | '-' :: cs => cs
    | cs => cs
  let intPart := unsigned.takeWhile isDigit
  let afterInt := unsigned.dropWhile isDigit
  let fracPart := match afterInt with
    | '.' :: cs => cs.takeWhile isDigit
    | _ => []
  let afterFrac := match afterInt with
    | '.' :: cs => cs.dropWhile isDigit
    | cs => cs
  let exponent : Int := match afterFrac with
    | _ :: '-' :: cs => - Int.ofNat (digitsValue cs)
    | _ :: '+' :: cs => Int.ofNat (digitsValue cs)
    | _ :: cs => Int.ofNat (digitsValue cs)
    | [] => 0
  (digitsValue (intPart ++ fracPart), exponent - Int.ofNat fracPart.length)

/-- The least magnitude that `strconv.ParseFloat(s, 64)` rounds to infinity: half
a unit in the last place above the largest `float64`. -/
def float64Overflow : Nat := 2 ^ 1024 - 2 ^ 970

/-- `strconv.ParseFloat(literal, 64)` returns no range error: the magnitude of
the literal is below `float64Overflow`. -/
def fitsFloat64 (literal : String) : Bool :=
  let d := decimalOf literal
  decide (d.1 * 10 ^ d.2.toNat < float64Overflow * 10 ^ (-d.2).toNat)

mutual
/-- Every number literal in the value converts to a `float64`.  Decoding into an
`interface{}` converts each number it meets, at any depth, and saves an
`UnmarshalTypeError` for one that is out of range. -/
def Json.numbersFit : Json → Bool
  | .num literal => fitsFloat64 literal
  | .arr items => numbersFitItems items
  | .obj members => numbersFitMembers members
  | _ => true
/-- `Json.numbersFit` for the items of an array. -/
def numbersFitItems : List Json → Bool
  | [] => true
  | v :: rest => v.numbersFit && numbersFitItems rest
/-- `Json.numbersFit` for the members of an object. -/
def numbersFitMembers : List (String × Json) → Bool
  | [] => true
  | kv :: rest => kv.2.numbersFit && numbersFitMembers rest
end

/-- `json.Unmarshal(message, &content)` for `content map[string]interface{}`:
an object fills the map, `null` leaves it nil (indexing a nil map finds
nothing), any other value is a type error; so is an object that holds, at any
depth, a number out of the range of `float64` (the decoder goes on and returns
the error it saved, and the caller drops the map). -/
def unmarshalMap : Message → Except JsonError GoMap
  | none => .error .syntaxError
  | some (.obj members) =>
    if numbersFitMembers members then .ok members else .error .unmarshalTypeError
  | some .null => .ok []
  | some _ => .error .unmarshalTypeError

/-- The body of an HTTP response as a `json.Decoder` reads it: `first` is the
first JSON value of the stream, `none` when the body does not start with a
complete JSON value (empty, truncated, or not JSON); `rest` is what follows that
value, which `Decode` leaves unread. -/
structure ResponseBody where
  first : Option Json
  rest : String

/-! ## Strings -/

/-- Go's `unicode.IsSpace`. -/
def isSpace (c : Char) : Bool :=
  c == '\t' || c == '\n' || c == '\x0b' || c == '\x0c' || c == '\r' || c == ' ' ||
  c == '\u0085' || c == '\u00A0' || c == '\u1680' ||
  (0x2000 ≤ c.toNat && c.toNat ≤ 0x200A) ||
  c == '\u2028' || c == '\u2029' || c == '\u202F' || c == '\u205F' || c == '\u3000'

/-- Go's `strings.TrimSpace`: leading and trailing white space removed. -/
def TrimSpace (s : String) : String :=
  String.mk ((s.data.dropWhile isSpace).reverse.dropWhile isSpace).reverse

/-! ## WebSocket connections -/

/-- A byte. -/
abbrev Byte := Fin 256

/-- A WebSocket data frame: `websocket.TextMessage` or `websocket.BinaryMessage`. -/
inductive Frame where
  | text (payload : Json)
  | binary (payload : List Byte)

/-- The write side of a `*websocket.Conn`: the frames written so far, and the
sticky write error of the connection (once set, every write fails). -/
structure Conn where
  url : String
  writeErr : Bool
  sent : List Frame

/-- `conn.WriteMessage(messageType, data)`. -/
def Conn.WriteMessage (c : Conn) (f : Frame) : Conn × Option String :=
  if c.writeErr then (c, some "write failed")
  else ({ c with sent := c.sent ++ [f] }, none)

/-! ## `encoding/base64`, standard encoding -/

/-- The alphabet of `base64.StdEncoding`. -/
def encodeStd : String :=
  "ABCDEFGHIJKLMNOPQRSTUVWXYZabcdefghijklmnopqrstuvwxyz0123456789+/"

/-- The padding character of `base64.StdEncoding`. -/
def padChar : Char := '='

/-- The table `enc.encode`: the character of a 6-bit value. -/
def encodeChar (i : Nat) : Char := encodeStd.data.getD i 'A'

/-- The table `enc.decodeMap`: the 6-bit value of an alphabet character, `none`
(0xff in Go) for every other character. -/
def decodeMap (c : Char) : Option Nat :=
  let i := encodeStd.data.indexOf c
  if i < 64 then some i else none

/-- `Encoding.Encode` on the characters: three bytes give four characters, a
remainder of one or two bytes is padded with `=`. -/
def encodeList : List Byte → List Char
  | a :: b :: c :: rest =>
    let val := a.val * 65536 + b.val * 256 + c.val
    encodeChar (val / 262144 % 64) :: encodeChar (val / 4096 % 64) ::
      encodeChar (val / 64 % 64) :: encodeChar (val % 64) :: encodeList rest
  | [a, b] =>
    let val := a.val * 65536 + b.val * 256
    [encodeChar (val / 262144 % 64), encodeChar (val / 4096 % 64),
     encodeChar (val / 64 % 64), padChar]
  | [a] =>
    let val := a.val * 65536
    [encodeChar (val / 262144 % 64), encodeChar (val / 4096 % 64), padChar, padChar]
  | [] => []

/-- `base64.StdEncoding.EncodeToString`. -/
def EncodeToString (src : List Byte) : String := String.mk (encodeList src)

/-- `Encoding.decodeQuantum` repeated over an input without line breaks: four
alphabet characters give three bytes; padding is accepted only as the last one
or two characters of the last quantum; anything else is a `CorruptInputError`
(`none`).  The standard encoding is not strict: the unused low bits of a
padded quantum are dropped unchecked. -/
def decodeQuanta : List Char → Option (List Byte)
  | [] => some []
  | c0 :: c1 :: c2 :: c3 :: rest =>
    match decodeMap c0, decodeMap c1 with
    | some d0, some d1 =>
      match decodeMap c2 with
      | some d2 =>
        match decodeMap c3 with
        | some d3 =>
          let val := d0 * 262144 + d1 * 4096 + d2 * 64 + d3
          match decodeQuanta rest with
          | some out =>
            some (Fin.ofNat (val / 65536) :: Fin.ofNat (val / 256) :: Fin.ofNat val :: out)
          | none => none
        | none =>
          let val := d0 * 262144 + d1 * 4096 + d2 * 64
          if c3 = padChar ∧ rest = [] then
            some [Fin.ofNat (val / 65536), Fin.ofNat (val / 256)]
          else none
      | none =>
        let val := d0 * 262144 + d1 * 4096
        if c2 = padChar ∧ c3 = padChar ∧ rest = [] then
          some [Fin.ofNat (val / 65536)]
        else none
    | _, _ => none
  | _ => none

/-- `base64.StdEncoding.DecodeString`: carriage returns and line feeds in the
input are skipped, the rest is decoded quantum by quantum. -/
def DecodeString (s : String) : Option (List Byte) :=
  decodeQuanta (s.data.filter (fun c => c != '\n' && c != '\r'))

/-! ## Storing JSON into Go structs -/

/-- The rune folding behind the case-insensitive match of object keys against
struct field names, on the runes that can fold to an ASCII letter: the ASCII
letters themselves, the Kelvin sign and the long s.  Every other rune folds to
a rune outside ASCII (left as it is here); the field names below are ASCII. -/
def foldRune (c : Char) : Char :=
  if 'a' ≤ c ∧ c ≤ 'z' then Char.ofNat (c.toNat - 32)
  else if c = '\u212A' then 'K'
  else if c = '\u017F' then 'S'
  else c

/-- The folded form of a key or field name. -/
def foldName (s : String) : String := String.mk (s.data.map foldRune)

/-- The struct field an object key is stored into: the field of exactly that
name, otherwise the first field whose folded name equals the folded key. -/
def findField (fields : List String) (key : String) : Option String :=
  match fields.find? (fun f => f == key) with
  | some f => some f
  | none => fields.find? (fun f => foldName f == foldName key)

/-- The error `Unmarshal` returns is the first one it saved. -/
def firstError (saved new : Option JsonError) : Option JsonError :=
  match saved with
  | some e => some e
  | none => new

/-- Storing a JSON value into a Go `string`: a string is stored, `null` leaves
the field as it is, anything else is a type error (and leaves the field). -/
def storeString (cur : String) : Json → String × Option JsonError
  | .str s => (s, none)
  | .null => (cur, none)
  | _ => (cur, some .unmarshalTypeError)

/-- Storing a JSON value into a Go `bool`. -/
def storeBool (cur : Bool) : Json → Bool × Option JsonError
  | .bool b => (b, none)
  | .null => (cur, none)
  | _ => (cur, some .unmarshalTypeError)

/-! ## The recorder (`go-speech-transcriber.go`) -/

/-- The fields of `GladiaRecorder` that carry state.  `Done` and `Mutex` appear
through the effects and the atomicity of the methods. -/
structure GladiaRecorder where
  Recording : Bool
  APIKey : String
  CurrentText : String
  WebSocket : Option Conn

/-- `NewGladiaRecorder` (the API key already resolved). -/
def NewGladiaRecorder (apiKey : String) : GladiaRecorder :=
  { Recording := false, APIKey := apiKey, CurrentText := "", WebSocket := none }

/-- What a recorder method asks of the runtime. -/
inductive Effect where
  | goStartRecording (language : String)
  | sendDone (v : Bool)
  | sleep (ms : Nat)
  deriving DecidableEq, Repr

/-- `GladiaRecorder.Start`: returns the new state, the returned error (`none` for
`nil`) and the effects. -/
def GladiaRecorder.Start (r : GladiaRecorder) (language : String) :
    GladiaRecorder × Option String × List Effect :=
  if r.Recording then
    (r, some "recording already in progress", [])
  else
    ({ r with Recording := true }, none, [Effect.goStartRecording language])

/-- `GladiaRecorder.Stop`: returns the new state and the effects. -/
def GladiaRecorder.Stop (r : GladiaRecorder) : GladiaRecorder × List Effect :=
  if !r.Recording then
    (r, [])
  else
    ({ r with Recording := false }, [Effect.sendDone true, Effect.sleep 100])

/-- A response of the HTTP client: status code and body. -/
structure HttpResponse where
  StatusCode : Int
  Body : ResponseBody

/-- A request handed to `client.Do`. -/
structure HttpRequest where
  Method : String
  URL : String
  Header : List (String × String)
  Body : Json

/-- The outside world of the recorder: what `client.Do` answers to a request and
what `websocket.DefaultDialer.Dial` answers for a URL. -/
structure Network where
  Do : HttpRequest → Except String HttpResponse
  Dial : String → Except String Conn

/-- `GLADIA_API_URL`. -/
def GLADIA_API_URL : String := "https://api.gladia.io"

/-- Why `InitializeSession` failed. -/
inductive InitError where
  | transport (msg : String)
  | badStatus (code : Int)
  | decode (e : JsonError)
  deriving DecidableEq, Repr

/-- `AudioTranscriptionService`. -/
structure AudioTranscriptionService where
  APIKey : String

/-- The request `InitializeSession` builds (`json.Marshal` writes the keys of a
map in sorted order). -/
def AudioTranscriptionService.request (s : AudioTranscriptionService) (language : String) :
    HttpRequest :=
  { Method := "POST"
    URL := GLADIA_API_URL ++ "/v2/live"
    Header := [("Content-Type", "application/json"), ("x-gladia-key", s.APIKey)]
    Body := .obj
      [ ("bit_depth", .num "16"), ("channels", .num "1"), ("encoding", .str "wav/pcm"),
        ("language_config", .obj
          [ ("code_switching", .bool true),
            ("languages", .arr (if language ≠ "" then [.str language] else [])) ]),
        ("sample_rate", .num "16000") ] }

/-- `AudioTranscriptionService.InitializeSession`: 200 and 201 are the accepted
statuses; `json.NewDecoder(resp.Body).Decode(&result)` decodes the first JSON
value of the body into a `map[string]interface{}` and does not look at what
follows it. -/
def AudioTranscriptionService.InitializeSession (s : AudioTranscriptionService)
    (net : Network) (language : String) : Except InitError GoMap :=
  match net.Do (s.request language) with
  | .error msg => .error (.transport msg)
  | .ok resp =>
    if resp.StatusCode ≠ 200 ∧ resp.StatusCode ≠ 201 then
      .error (.badStatus resp.StatusCode)
    else
      match unmarshalMap resp.Body.first with
      | .error e => .error (.decode e)
      | .ok result => .ok result

/-- The lines the recorder writes with `log.Printf`. -/
inductive LogEvent where
  | startingRecording (language : String)
  | errorInitializingSession (e : InitError)
  | missingWebSocketURL
  | gotWebSocketURL (wsURL : String)
  | connecting
  | webSocketConnectionError (msg : String)
  | connected
  | webSocketReadError (msg : String)
  | errorParsingMessage
  | currentTranscription (text : String)
  | noTextToType
  | typingText (text : String)
  deriving DecidableEq, Repr

/-- `GladiaRecorder.startRecording` up to the point where the two loops are
launched (lines 161-192): session negotiation, extraction of `url`, dial.
Returns the recorder, the log, and the connection when one was opened; `none`
means `startRecording` has returned through one of its three early returns. -/
def GladiaRecorder.startRecordingConnect (r : GladiaRecorder) (net : Network)
    (language : String) : GladiaRecorder × List LogEvent × Option Conn :=
  let audioService : AudioTranscriptionService := { APIKey := r.APIKey }
  match audioService.InitializeSession net language with
  | .error err =>
    (r, [.startingRecording language, .errorInitializingSession err], none)
  | .ok sessionInfo =>
    match sessionInfo.index "url" with
    | some (.str wsURL) =>
      match net.Dial wsURL with
      | .error msg =>
        (r, [.startingRecording language, .gotWebSocketURL wsURL, .connecting,
             .webSocketConnectionError msg], none)
      | .ok conn =>
        ({ r with WebSocket := some conn },
         [.startingRecording language, .gotWebSocketURL wsURL, .connecting, .connected],
         some conn)
    | _ =>
      (r, [.startingRecording language, .missingWebSocketURL], none)

/-- One iteration of the transcript goroutine of `startRecording` after a
successful `conn.ReadMessage` (lines 210-248). -/
def GladiaRecorder.receiveStep (r : GladiaRecorder) (message : Message) :
    GladiaRecorder × List LogEvent :=
  match unmarshalMap message with
  | .error _ => (r, [.errorParsingMessage])
  | .ok content =>
    match content.index "type" with
    | some (.str contentType) =>
      if contentType = "transcript" then
        match content.index "data" with
        | some (.obj data) =>
          match GoMap.index data "is_final" with
          | some (.bool isFinal) =>
            if !isFinal then (r, [])
            else
              match GoMap.index data "utterance" with
              | some (.obj utterance) =>
                match GoMap.index utterance "text" with
                | some (.str text) =>
                  let text := TrimSpace text
                  let r1 : GladiaRecorder :=
                    if r.CurrentText ≠ "" then
                      { r with CurrentText := r.CurrentText ++ (" " ++ text) }
                    else
                      { r with CurrentText := text }
                  (r1, [.currentTranscription r1.CurrentText])
                | _ => (r, [])
              | _ => (r, [])
          | _ => (r, [])
        | _ => (r, [])
      else (r, [])
    | _ => (r, [])

/-- The transcript goroutine of `startRecording` (lines 199-250) run over the
results of its successive `conn.ReadMessage` calls: it handles each message
read and returns at the first read error. -/
def GladiaRecorder.receiveLoop (r : GladiaRecorder) :
    List (Except String Message) → GladiaRecorder × List LogEvent
  | [] => (r, [])
  | .error msg :: _ => (r, if r.Recording then [.webSocketReadError msg] else [])
  | .ok message :: rest =>
    let step := r.receiveStep message
    let tail := GladiaRecorder.receiveLoop step.1 rest
    (tail.1, step.2 ++ tail.2)

/-- The locked read-and-reset of `typeText` (lines 348-351): the text taken and
the recorder afterwards. -/
def GladiaRecorder.drainText (r : GladiaRecorder) : String × GladiaRecorder :=
  (r.CurrentText, { r with CurrentText := "" })

/-- `GladiaRecorder.typeText`: the recorder afterwards, the log, and the text
handed to the clipboard and keyboard (`none` when there is nothing to type). -/
def GladiaRecorder.typeText (r : GladiaRecorder) :
    GladiaRecorder × List LogEvent × Option String :=
  let d := r.drainText
  if d.1 = "" then (d.2, [.noTextToType], none)
  else (d.2, [.typingText d.1], some d.1)

/-! ## The Twilio relay (`twilio-solaria-go/src/main.go`) -/

/-- `GladiaSession`. -/
structure GladiaSession where
  ID : String
  URL : String
  deriving DecidableEq, Repr

/-- Storing a JSON value into a `GladiaSession`.  The struct has no field tags,
so its JSON names are `ID` and `URL`, matched case-insensitively. -/
def storeGladiaSession (cur : GladiaSession) : Json → GladiaSession × Option JsonError
  | .obj members =>
    members.foldl (fun acc kv =>
      if findField ["ID", "URL"] kv.1 = some "ID" then
        let f := storeString acc.1.ID kv.2
        ({ acc.1 with ID := f.1 }, firstError acc.2 f.2)
      else if findField ["ID", "URL"] kv.1 = some "URL" then
        let f := storeString acc.1.URL kv.2
        ({ acc.1 with URL := f.1 }, firstError acc.2 f.2)
      else acc) (cur, none)
  | .null => (cur, none)
  | _ => (cur, some .unmarshalTypeError)

/-- `json.NewDecoder(resp.Body).Decode(&data)` for `data GladiaSession`: the
first JSON value of the body is stored into `data`; a body that does not start
with a JSON value is an error; what follows the first value is not read. -/
def decodeGladiaSession (body : ResponseBody) : GladiaSession × Option JsonError :=
  match body.first with
  | none => ({ ID := "", URL := "" }, some .syntaxError)
  | some v => storeGladiaSession { ID := "", URL := "" } v

/-- The errors of `createSession`. -/
inductive SessionError where
  | requestFailed (msg : String)
  | badStatusCode (code : Int)
  | decodeFailed (e : JsonError)
  deriving DecidableEq, Repr

/-- The lines the relay writes with `log.Printf`. -/
inductive RelayLog where
  | sessionID (id : String)
  | errorParsingTwilioMessage
  | ignoringNonMediaEvent (event : String)
  | errorDecodingPayload
  | errorSendingToGladia
  | errorParsingGladiaMessage
  | transcript (text : String)
  | errorReadingFromTwilio (msg : String)
  deriving DecidableEq, Repr

/-- `gladiaInitURL`. -/
def gladiaInitURL : String := "https://api.gladia.io/v2/live"

/-- The request `createSession` builds. -/
def createSessionRequest (gladiaAPIKey : String) : HttpRequest :=
  { Method := "POST"
    URL := gladiaInitURL
    Header := [("X-Gladia-Key", gladiaAPIKey), ("Content-Type", "application/json")]
    Body := .obj [ ("bit_depth", .num "8"), ("channels", .num "1"),
                   ("encoding", .str "wav/ulaw"), ("sample_rate", .num "8000") ] }

/-- `createSession`: the session and the error it returns (`none` for `nil`),
and its log.  `clientDo` is what `client.Do` answers.  Marshalling the constant
payload and building the request for the constant URL cannot fail. -/
def createSession (gladiaAPIKey : String) (clientDo : HttpRequest → Except String HttpResponse) :
    (GladiaSession × Option SessionError) × List RelayLog :=
  match clientDo (createSessionRequest gladiaAPIKey) with
  | .error msg => (({ ID := "", URL := "" }, some (.requestFailed msg)), [])
  | .ok resp =>
    if resp.StatusCode < 200 ∨ resp.StatusCode ≥ 300 then
      (({ ID := "", URL := "" }, some (.badStatusCode resp.StatusCode)), [])
    else
      match decodeGladiaSession resp.Body with
      | (_, some err) => (({ ID := "", URL := "" }, some (.decodeFailed err)), [])
      | (data, none) => ((data, none), [.sessionID data.ID])

/-- The `Media` member of `TwilioMessage`. -/
structure TwilioMedia where
  Payload : String
  deriving DecidableEq, Repr

/-- `TwilioMessage`. -/
structure TwilioMessage where
  Event : String
  Media : TwilioMedia
  deriving DecidableEq, Repr

/-- Storing a JSON value into the `Media` struct (JSON name `payload`). -/
def storeTwilioMedia (cur : TwilioMedia) : Json → TwilioMedia × Option JsonError
  | .obj members =>
    members.foldl (fun acc kv =>
      if findField ["payload"] kv.1 = some "payload" then
        let f := storeString acc.1.Payload kv.2
        ({ Payload := f.1 }, firstError acc.2 f.2)
      else acc) (cur, none)
  | .null => (cur, none)
  | _ => (cur, some .unmarshalTypeError)

/-- Storing a JSON value into a `TwilioMessage` (JSON names `event`, `media`). -/
def storeTwilioMessage (cur : TwilioMessage) : Json → TwilioMessage × Option JsonError
  | .obj members =>
    members.foldl (fun acc kv =>
      if findField ["event", "media"] kv.1 = some "event" then
        let f := storeString acc.1.Event kv.2
        ({ acc.1 with Event := f.1 }, firstError acc.2 f.2)
      else if findField ["event", "media"] kv.1 = some "media" then
        let f := storeTwilioMedia acc.1.Media kv.2
        ({ acc.1 with Media := f.1 }, firstError acc.2 f.2)
      else acc) (cur, none)
  | .null => (cur, none)
  | _ => (cur, some .unmarshalTypeError)

/-- `json.Unmarshal(message, &msg)` for `msg TwilioMessage`. -/
def unmarshalTwilioMessage : Message → TwilioMessage × Option JsonError
  | none => ({ Event := "", Media := { Payload := "" } }, some .syntaxError)
  | some v => storeTwilioMessage { Event := "", Media := { Payload := "" } } v

/-- `processMessage`: the backend connection afterwards, and the log. -/
def processMessage (message : Message) (gladiaConn : Conn) : Conn × List RelayLog :=
  match unmarshalTwilioMessage message with
  | (_, some _) => (gladiaConn, [.errorParsingTwilioMessage])
  | (msg, none) =>
    if msg.Event ≠ "media" then
      (gladiaConn, [.ignoringNonMediaEvent msg.Event])
    else
      match DecodeString msg.Media.Payload with
      | none => (gladiaConn, [.errorDecodingPayload])
      | some mulaw =>
        match gladiaConn.WriteMessage (.binary mulaw) with
        | (c, some _) => (c, [.errorSendingToGladia])
        | (c, none) => (c, [])

/-- The Twilio -> Gladia goroutine of `handleWebSocket` (lines 154-164) run over
the results of its successive `twilioConn.ReadMessage` calls: every message read
goes through `processMessage`; the first read error ends the loop. -/
def twilioToGladia (gladiaConn : Conn) : List (Except String Message) → Conn × List RelayLog
  | [] => (gladiaConn, [])
  | .error msg :: _ => (gladiaConn, [.errorReadingFromTwilio msg])
  | .ok message :: rest =>
    let step := processMessage message gladiaConn
    let tail := twilioToGladia step.1 rest
    (tail.1, step.2 ++ tail.2)

/-- The `Utterance` member of `GladiaMessage.Data`. -/
structure GladiaUtterance where
  Text : String
  deriving DecidableEq, Repr

/-- The `Data` member of `GladiaMessage`. -/
structure GladiaData where
  IsFinal : Bool
  Utterance : GladiaUtterance
  deriving DecidableEq, Repr

/-- `GladiaMessage` (its field `Type` is written `Type_`, `Type` being reserved). -/
structure GladiaMessage where
  Type_ : String
  Data : GladiaData
  deriving DecidableEq, Repr

/-- Storing a JSON value into the `Utterance` struct (JSON name `text`). -/
def storeGladiaUtterance (cur : GladiaUtterance) : Json → GladiaUtterance × Option JsonError
  | .obj members =>
    members.foldl (fun acc kv =>
      if findField ["text"] kv.1 = some "text" then
        let f := storeString acc.1.Text kv.2
        ({ Text := f.1 }, firstError acc.2 f.2)
      else acc) (cur, none)
  | .null => (cur, none)
  | _ => (cur, some .unmarshalTypeError)

/-- Storing a JSON value into the `Data` struct (JSON names `is_final`,
`utterance`). -/
def storeGladiaData (cur : GladiaData) : Json → GladiaData × Option JsonError
  | .obj members =>
    members.foldl (fun acc kv =>
      if findField ["is_final", "utterance"] kv.1 = some "is_final" then
        let f := storeBool acc.1.IsFinal kv.2
        ({ acc.1 with IsFinal := f.1 }, firstError acc.2 f.2)
      else if findField ["is_final", "utterance"] kv.1 = some "utterance" then
        let f := storeGladiaUtterance acc.1.Utterance kv.2
        ({ acc.1 with Utterance := f.1 }, firstError acc.2 f.2)
      else acc) (cur, none)
  | .null => (cur, none)
  | _ => (cur, some .unmarshalTypeError)

/-- Storing a JSON value into a `GladiaMessage` (JSON names `type`, `data`). -/
def storeGladiaMessage (cur : GladiaMessage) : Json → GladiaMessage × Option JsonError
  | .obj members =>
    members.foldl (fun acc kv =>
      if findField ["type", "data"] kv.1 = some "type" then
        let f := storeString acc.1.Type_ kv.2
        ({ acc.1 with Type_ := f.1 }, firstError acc.2 f.2)
      else if findField ["type", "data"] kv.1 = some "data" then
        let f := storeGladiaData acc.1.Data kv.2
        ({ acc.1 with Data := f.1 }, firstError acc.2 f.2)
      else acc) (cur, none)
  | .null => (cur, none)
  | _ => (cur, some .unmarshalTypeError)

/-- `json.Unmarshal(message, &msg)` for `msg GladiaMessage`. -/
def unmarshalGladiaMessage : Message → GladiaMessage × Option JsonError
  | none =>
    ({ Type_ := "", Data := { IsFinal := false, Utterance := { Text := "" } } },
     some .syntaxError)
  | some v =>
    storeGladiaMessage { Type_ := "", Data := { IsFinal := false, Utterance := { Text := "" } } } v

/-- `handleGladia`: the returned transcript, and the log. -/
def handleGladia (message : Message) : String × List RelayLog :=
  match unmarshalGladiaMessage message with
  | (_, some _) => ("", [.errorParsingGladiaMessage])
  | (msg, none) =>
    if msg.Type_ = "transcript" ∧ msg.Data.IsFinal = true then
      let transcript := msg.Data.Utterance.Text
      (transcript, [.transcript transcript])
    else ("", [])

/-! ## The recorder: the audio goroutine of `startRecording` -/

/-- `byte(sample & 0xFF)` for an `int16` sample, the sample given as an integer
(`&` acts on the two's-complement bits, so it is the remainder modulo 256). -/
def lowByte (sample : Int) : Byte := Fin.ofNat (sample % 256).toNat

/-- `byte((sample >> 8) & 0xFF)` for an `int16` sample (`>>` on a signed integer
is the arithmetic shift: division by 256 rounding down). -/
def highByte (sample : Int) : Byte := Fin.ofNat ((sample / 256) % 256).toNat

/-- The byte conversion of the audio loop (lines 293-298): `audioBytes[i*2]` and
`audioBytes[i*2+1]` are the low and the high byte of `buffer[i]`. -/
def audioBytes : List Int → List Byte
  | [] => []
  | sample :: rest => lowByte sample :: highByte sample :: audioBytes rest

/-- The `audio_chunk` message of one buffer, as `json.Marshal` writes the map
(keys sorted). -/
def audioChunkMessage (buffer : List Int) : Json :=
  .obj [ ("data", .obj [("chunk", .str (EncodeToString (audioBytes buffer)))]),
         ("type", .str "audio_chunk") ]

/-- The `stop_recording` message. -/
def stopRecordingMessage : Json := .obj [("type", .str "stop_recording")]

/-- `conn.Close()`: every later write on the connection fails. -/
def Conn.Close (c : Conn) : Conn := { c with writeErr := true }

/-- How the set-up of the audio input went (lines 257-283). -/
inductive AudioSetup where
  | initializeError (msg : String)
  | openStreamError (msg : String)
  | startStreamError (msg : String)
  | ready

/-- One iteration of the audio loop entered with `r.Recording` true: what
`stream.Read` returned (an error, or the buffer filled with samples), and for a
buffer whether the connection breaks at the write of its chunk. -/
inductive AudioTick where
  | readError (msg : String)
  | chunk (buffer : List Int) (writeFails : Bool)

/-- The lines the audio goroutine writes with `log.Printf`. -/
inductive AudioLog where
  | errorInitializingAudio (msg : String)
  | errorOpeningAudioStream (msg : String)
  | errorStartingAudioStream (msg : String)
  | errorReadingFromAudioStream (msg : String)
  | errorSendingAudioChunk
  deriving DecidableEq, Repr

/-- What the audio goroutine leaves behind: the connection, its log, and whether
it launched `typeText`. -/
structure AudioResult where
  conn : Conn
  log : List AudioLog
  typeTextLaunched : Bool

/-- The audio loop and what follows it (lines 285-333), run over the iterations
it enters; the end of the list is the moment the loop condition finds
`r.Recording` false.  A read error or a write error returns from the goroutine;
leaving the loop writes `stop_recording` and launches `typeText`, whether that
write succeeds or not (its result is ignored); `stopWriteFails` says whether the
connection breaks at that write.  Marshalling the chunk message cannot fail. -/
def audioSendLoop (conn : Conn) (stopWriteFails : Bool) : List AudioTick → AudioResult
  | [] =>
    let c : Conn := if stopWriteFails then { conn with writeErr := true } else conn
    { conn := (c.WriteMessage (.text stopRecordingMessage)).1
      log := []
      typeTextLaunched := true }
  | .readError msg :: _ =>
    { conn := conn, log := [.errorReadingFromAudioStream msg], typeTextLaunched := false }
  | .chunk buffer writeFails :: rest =>
    let c : Conn := if writeFails then { conn with writeErr := true } else conn
    match c.WriteMessage (.text (audioChunkMessage buffer)) with
    | (c1, some _) => { conn := c1, log := [.errorSendingAudioChunk], typeTextLaunched := false }
    | (c1, none) => audioSendLoop c1 stopWriteFails rest

/-- The audio goroutine of `startRecording` (lines 253-333). -/
def audioGoroutine (setup : AudioSetup) (conn : Conn) (ticks : List AudioTick)
    (stopWriteFails : Bool) : AudioResult :=
  match setup with
  | .initializeError msg =>
    { conn := conn, log := [.errorInitializingAudio msg], typeTextLaunched := false }
  | .openStreamError msg =>
    { conn := conn, log := [.errorOpeningAudioStream msg], typeTextLaunched := false }
  | .startStreamError msg =>
    { conn := conn, log := [.errorStartingAudioStream msg], typeTextLaunched := false }
  | .ready => audioSendLoop conn stopWriteFails ticks

/-- The backend connection once the audio goroutine has finished.  `startRecording`
blocks on `<-r.Done` (lines 336-339) until `Stop` sends on `Done`, whatever made
the goroutine finish; only then do `wg.Wait()` and the deferred `conn.Close()`
run.  `doneReceived` says whether that has happened: until then the connection
stays open. -/
def audioThenClose (setup : AudioSetup) (conn : Conn) (ticks : List AudioTick)
    (stopWriteFails : Bool) (doneReceived : Bool) : Conn :=
  if doneReceived then (audioGoroutine setup conn ticks stopWriteFails).conn.Close
  else (audioGoroutine setup conn ticks stopWriteFails).conn

/-! ## The recorder: status bar application and key listener -/

/-- A `time.Time`, in nanoseconds since the Unix epoch. -/
abbrev Time := Int

/-- The zero `time.Time{}`: 1 January of year 1. -/
def zeroTime : Time := -62135596800000000000

/-- `t.Sub(u)` in nanoseconds.  Go saturates the difference at the largest
duration; the comparisons with 500 ms below do not see the saturation. -/
def Time.Sub (t u : Time) : Int := t - u

/-- 500 * `time.Millisecond`, in nanoseconds. -/
def halfSecond : Int := 500000000

/-- `StatusBarApp`.  `Recorder` is the recorder the app points to; `Timer` is
`none` for a nil timer and otherwise holds the duration it was armed with;
`MaxTime` is a `float64` in the source, of which only `MaxTime > 0` is tested. -/
structure StatusBarApp where
  Recorder : GladiaRecorder
  Languages : List String
  CurrentLanguage : String
  MaxTime : ℚ
  Started : Bool
  Timer : Option ℚ
  StartTime : Time

/-- `NewStatusBarApp`. -/
def NewStatusBarApp (recorder : GladiaRecorder) (languages : List String) (maxTime : ℚ) :
    StatusBarApp :=
  { Recorder := recorder
    Languages := languages
    CurrentLanguage := languages.headD ""
    MaxTime := maxTime
    Started := false
    Timer := none
    StartTime := zeroTime }

/-- What the app asks of the runtime and of the tray, in the order it asks. -/
inductive AppEffect where
  | logListening
  | logPerforming
  | logErrorStartingRecording (err : String)
  | setTitleRecording
  | setTitleTranscribing
  | recorder (e : Effect)
  | timerStop
  | timerAfterFunc (seconds : ℚ)
  | goUpdateTitle
  | callToggle
  deriving DecidableEq

/-- `StatusBarApp.Stop`. -/
def StatusBarApp.Stop (app : StatusBarApp) : StatusBarApp × List AppEffect :=
  if !app.Started then
    (app, [])
  else
    let stopped := app.Recorder.Stop
    ({ app with Started := false, Recorder := stopped.1 },
     (if app.Timer.isSome then [AppEffect.timerStop] else []) ++
       [.logPerforming, .setTitleTranscribing] ++ stopped.2.map AppEffect.recorder)

/-- `StatusBarApp.Start`; `now` is what `time.Now()` returns. -/
def StatusBarApp.Start (app : StatusBarApp) (now : Time) : StatusBarApp × List AppEffect :=
  let started := app.Recorder.Start app.CurrentLanguage
  let app1 : StatusBarApp := { app with Started := true, Recorder := started.1 }
  match started.2.1 with
  | some err =>
    let stopped := app1.Stop
    (stopped.1,
     [.logListening, .setTitleRecording] ++ started.2.2.map AppEffect.recorder ++
       [.logErrorStartingRecording err] ++ stopped.2)
  | none =>
    ({ app1 with
        StartTime := now
        Timer := if app1.MaxTime > 0 then some app1.MaxTime else app1.Timer },
     [.logListening, .setTitleRecording] ++ started.2.2.map AppEffect.recorder ++
       (if app1.MaxTime > 0 then [AppEffect.timerAfterFunc app1.MaxTime] else []) ++
       [.goUpdateTitle])

/-- `StatusBarApp.Toggle`. -/
def StatusBarApp.Toggle (app : StatusBarApp) (now : Time) : StatusBarApp × List AppEffect :=
  if app.Started then app.Stop else app.Start now

/-- What drives the app, one call at a time: the two menu items and Quit (the
goroutine of `onReady`, lines 498-517), the expiry of the timer armed by
`Start`, and a `Toggle` from the key listener. -/
inductive AppEvent where
  | clickStartRecord (now : Time)
  | clickStopRecord
  | clickQuit
  | timerFired
  | toggle (now : Time)

/-- The app's reaction to one event. -/
def StatusBarApp.handle (app : StatusBarApp) : AppEvent → StatusBarApp × List AppEffect
  | .clickStartRecord now => if !app.Started then app.Start now else (app, [])
  | .clickStopRecord => if app.Started then app.Stop else (app, [])
  | .clickQuit => if app.Started then app.Stop else (app, [])
  | .timerFired => app.Stop
  | .toggle now => app.Toggle now

/-- The app's reaction to a sequence of events. -/
def StatusBarApp.run (app : StatusBarApp) : List AppEvent → StatusBarApp × List AppEffect
  | [] => (app, [])
  | ev :: rest =>
    let step := app.handle ev
    let tail := StatusBarApp.run step.1 rest
    (tail.1, step.2 ++ tail.2)

/-- `strings.Split` on a one-character separator, on the characters. -/
def splitOnChar (sep : Char) : List Char → List (List Char)
  | [] => [[]]
  | c :: cs =>
    if c = sep then [] :: splitOnChar sep cs
    else
      match splitOnChar sep cs with
      | [] => [[c]]
      | part :: parts => (c :: part) :: parts

/-- `strings.Split(s, "+")`. -/
def splitPlus (s : String) : List String := (splitOnChar '+' s.data).map String.mk

/-- The `keyMap` of `parseKeyCombination`. -/
def keyMap : List (String × Int) :=
  [("cmd_l", 56), ("cmd_r", 54), ("alt", 3675), ("ctrl", 59), ("shift", 56)]

/-- The key of one part of a combination: its `keyMap` entry, otherwise the byte
of a part of length one (`len` counts bytes, so the part is one ASCII
character), otherwise none. -/
def parsePart (part : String) : Option Int :=
  match keyMap.find? (fun kv => kv.1 == part) with
  | some kv => some kv.2
  | none =>
    match part.data with
    | [c] => if c.toNat < 128 then some (Int.ofNat c.toNat) else none
    | _ => none

/-- `parseKeyCombination`. -/
def parseKeyCombination (combination : String) : List Int :=
  (splitPlus combination).filterMap parsePart

/-- `KeyListener`.  `KeysPressed` is the map from key codes to booleans: a key
that is not in the map reads as false. -/
structure KeyListener where
  App : StatusBarApp
  KeyCombination : List Int
  KeysPressed : Int → Bool
  DoubleCmd : Bool
  LastPressTime : Time
  LastReleasedKey : Int
  LastReleaseTime : Time

/-- `NewKeyListener`. -/
def NewKeyListener (app : StatusBarApp) (keyCombination : String) (doubleCmd : Bool) :
    KeyListener :=
  { App := app
    KeyCombination := parseKeyCombination keyCombination
    KeysPressed := fun _ => false
    DoubleCmd := doubleCmd
    LastPressTime := zeroTime
    LastReleasedKey := 0
    LastReleaseTime := zeroTime }

/-- A call `l.App.Toggle()` made by the listener: the call is recorded in front
of the effects of the toggle. -/
def KeyListener.toggleApp (l : KeyListener) (now : Time) : KeyListener × List AppEffect :=
  let toggled := l.App.Toggle now
  ({ l with App := toggled.1 }, AppEffect.callToggle :: toggled.2)

/-- `KeyListener.handleKeyDown`; `now` is what `time.Now()` returns. -/
def KeyListener.handleKeyDown (l : KeyListener) (keyCode : Int) (now : Time) :
    KeyListener × List AppEffect :=
  if l.DoubleCmd then
    if keyCode = 54 then
      let t : KeyListener × List AppEffect :=
        if !l.App.Started ∧ Time.Sub now l.LastPressTime < halfSecond then l.toggleApp now
        else if l.App.Started then l.toggleApp now
        else (l, [])
      ({ t.1 with LastPressTime := now }, t.2)
    else (l, [])
  else
    let l1 : KeyListener :=
      { l with KeysPressed := fun k => if k = keyCode then true else l.KeysPressed k }
    let t1 : KeyListener × List AppEffect :=
      if l1.KeysPressed 56 && l1.KeysPressed 3675 then l1.toggleApp now else (l1, [])
    let allPressed := t1.1.KeyCombination.all (fun key => t1.1.KeysPressed key)
    let t2 : KeyListener × List AppEffect :=
      if allPressed then t1.1.toggleApp now else (t1.1, [])
    (t2.1, t1.2 ++ t2.2)

/-- `KeyListener.handleKeyUp`; `now` is what `time.Now()` returns. -/
def KeyListener.handleKeyUp (l : KeyListener) (keyCode : Int) (now : Time) :
    KeyListener × List AppEffect :=
  let t : KeyListener × List AppEffect :=
    if keyCode = 56 ∨ keyCode = 3675 then
      let t0 : KeyListener × List AppEffect :=
        if l.LastReleasedKey ≠ 0 ∧ l.LastReleasedKey ≠ keyCode ∧
            Time.Sub now l.LastReleaseTime < halfSecond ∧
            ((l.LastReleasedKey = 56 ∧ keyCode = 3675) ∨
             (l.LastReleasedKey = 3675 ∧ keyCode = 56)) then
          l.toggleApp now
        else (l, [])
      ({ t0.1 with LastReleasedKey := keyCode, LastReleaseTime := now }, t0.2)
    else (l, [])
  ({ t.1 with KeysPressed := fun k => if k = keyCode then false else t.1.KeysPressed k }, t.2)

/-! ## Statements of the specification and sample inputs -/

/-- The spec's "final transcript fragment with text `t`": a message that
`json.Unmarshal` accepts, whose `type` is "transcript", whose `data.is_final` is
true and whose `data.utterance.text` is the string `t`. -/
def IsFinalFragment (m : Message) (t : String) : Prop :=
  ∃ content data utterance : GoMap,
    unmarshalMap m = .ok content ∧
    content.index "type" = some (.str "transcript") ∧
    content.index "data" = some (.obj data) ∧
    GoMap.index data "is_final" = some (.bool true) ∧
    GoMap.index data "utterance" = some (.obj utterance) ∧
    GoMap.index utterance "text" = some (.str t)

/-- The spec's "transcript with is_final = true": the message is valid JSON, an
object whose `type` is "transcript" and whose `data.is_final` is true. -/
def isFinalTranscript : Message → Bool
  | some (.obj content) =>
    match GoMap.index content "type", GoMap.index content "data" with
    | some (.str contentType), some (.obj data) =>
      contentType == "transcript" &&
        (match GoMap.index data "is_final" with
         | some (.bool true) => true
         | _ => false)
    | _, _ => false
  | _ => false

/-- The backend message of type "transcript" with the given `is_final` and text. -/
def transcriptMessage (isFinal : Bool) (text : String) : Message :=
  some (.obj [ ("type", .str "transcript"),
               ("data", .obj [ ("is_final", .bool isFinal),
                               ("utterance", .obj [("text", .str text)]) ]) ])

/-- A recorder in the middle of a recording. -/
def sampleRecording : GladiaRecorder :=
  { Recording := true, APIKey := "key", CurrentText := "hello", WebSocket := none }

/-- An idle recorder with an empty buffer. -/
def sampleIdle : GladiaRecorder := NewGladiaRecorder "key"

/-- A network on which the negotiation request times out. -/
def unreachableNetwork : Network :=
  { Do := fun _ => .error "timeout", Dial := fun _ => .error "no route" }

/-- A network whose backend answers 201 with a body without `url`. -/
def noURLNetwork : Network :=
  { Do := fun _ => .ok { StatusCode := 201,
                          Body := { first := some (.obj [("id", .str "s1")]), rest := "" } }
    Dial := fun _ => .error "no route" }

/-- The spec's notion of a failed start on network `net`: the negotiation fails,
or its response has no string `url`, or dialling that URL fails. -/
def StartFails (r : GladiaRecorder) (net : Network) (language : String) : Prop :=
  (∃ e, AudioTranscriptionService.InitializeSession { APIKey := r.APIKey } net language
      = .error e) ∨
  (∃ info, AudioTranscriptionService.InitializeSession { APIKey := r.APIKey } net language
      = .ok info ∧ ∀ u, GoMap.index info "url" ≠ some (.str u)) ∨
  (∃ info u msg, AudioTranscriptionService.InitializeSession { APIKey := r.APIKey } net language
      = .ok info ∧ GoMap.index info "url" = some (.str u) ∧ net.Dial u = .error msg)

/-- The log lines by which `startRecording` reports a failed start. -/
def isStartFailureLog : LogEvent → Bool
  | .errorInitializingSession _ => true
  | .missingWebSocketURL => true
  | .webSocketConnectionError _ => true
  | _ => false

/-- The Twilio envelope of event "media" whose payload is the standard base64
encoding of `b`. -/
def mediaEnvelope (b : List Byte) : Message :=
  some (.obj [ ("event", .str "media"),
               ("media", .obj [("payload", .str (EncodeToString b))]) ])

/-- The spec's accepted audio frame: the message parses into a `TwilioMessage`,
its event is "media" and its payload is valid base64; the value is the decoded
payload. -/
def acceptedAudio (m : Message) : Option (List Byte) :=
  match unmarshalTwilioMessage m with
  | (msg, none) => if msg.Event = "media" then DecodeString msg.Media.Payload else none
  | (_, some _) => none

/-- A backend connection in working order on which nothing has been written. -/
def sampleConn : Conn := { url := "wss://backend", writeErr := false, sent := [] }

/-- A successful negotiation response whose body is the empty object. -/
def emptyObjectResponse : HttpResponse :=
  { StatusCode := 200, Body := { first := some (.obj []), rest := "" } }

/-- The zero value `GladiaSession{}`. -/
def zeroSession : GladiaSession := { ID := "", URL := "" }

/-- The spec's condition on a backend message for `handleGladia`: it parses into
a `GladiaMessage` with `type` "transcript" and `data.is_final` true. -/
def IsFinalGladiaTranscript (m : Message) : Prop :=
  (unmarshalGladiaMessage m).2 = none ∧
  (unmarshalGladiaMessage m).1.Type_ = "transcript" ∧
  (unmarshalGladiaMessage m).1.Data.IsFinal = true

/-- The backend message with the given `type`, `data.is_final` and
`data.utterance.text`. -/
def backendMessage (type : String) (isFinal : Bool) (text : String) : Message :=
  some (.obj [ ("type", .str type),
               ("data", .obj [ ("is_final", .bool isFinal),
                               ("utterance", .obj [("text", .str text)]) ]) ])

/-- A transcript message whose `data` has no `is_final` member. -/
def transcriptWithoutIsFinal (text : String) : Message :=
  some (.obj [ ("type", .str "transcript"),
               ("data", .obj [("utterance", .obj [("text", .str text)])]) ])

/-- A stream of Twilio messages: audio, an unparsable message, a "start" event,
a media event with an undecodable payload, audio again. -/
def sampleTwilioMessages : List Message :=
  [ mediaEnvelope [1, 2, 3],
    none,
    some (.obj [("event", .str "start")]),
    some (.obj [("event", .str "media"), ("media", .obj [("payload", .str "@@@")])]),
    mediaEnvelope [4] ]

/-- The `type` member of a text frame whose payload is a JSON object. -/
def frameType : Frame → Option String
  | .text (.obj members) =>
    match GoMap.index members "type" with
    | some (.str t) => some t
    | _ => none
  | _ => none

/-- The frame is a `stop_recording` control message. -/
def isStopRecording (f : Frame) : Bool := frameType f == some "stop_recording"

/-- The frame is an `audio_chunk` message. -/
def isAudioChunk (f : Frame) : Bool := frameType f == some "audio_chunk"

/-- The buffers of the iterations before the first read error or write error. -/
def writtenChunks : List AudioTick → List (List Int)
  | .chunk buffer false :: rest => buffer :: writtenChunks rest
  | _ => []

/-- The run of the audio loop ends because `r.Recording` is found false: no
iteration has a read error or a write error. -/
def endsByStop : List AudioTick → Bool
  | [] => true
  | .chunk _ false :: rest => endsByStop rest
  | _ => false

/-- A run of the audio loop that sends one buffer and then fails to read. -/
def sampleFailingTicks : List AudioTick := [.chunk [1, -2] false, .readError "device lost"]

/-- The two's-complement representation of a 16-bit sample, as a number in
0..65535. -/
def twosComplement16 (sample : Int) : Int := sample % 65536

/-- A number in 0..65535 read as a signed 16-bit integer. -/
def asSigned16 (u : Int) : Int := if u ≥ 32768 then u - 65536 else u

/-- The invariant of the app: its `Started` flag equals the `Recording` flag of
its recorder. -/
def StatusBarApp.Consistent (app : StatusBarApp) : Prop :=
  app.Started = app.Recorder.Recording

/-- The effect is the log line of the error branch of `StatusBarApp.Start`,
taken when `Recorder.Start` returns "recording already in progress". -/
def isStartError : AppEffect → Bool
  | .logErrorStartingRecording _ => true
  | _ => false

/-- The effect is a call of `App.Toggle` by the key listener. -/
def isToggleCall : AppEffect → Bool
  | .callToggle => true
  | _ => false

/-- The number of calls of `App.Toggle` in a list of effects. -/
def toggleCalls (effects : List AppEffect) : Nat := effects.countP isToggleCall

/-- The app as `main` creates it, with the default maximum time. -/
def sampleApp : StatusBarApp := NewStatusBarApp (NewGladiaRecorder "key") ["en"] 30

/-- The app in the middle of a recording. -/
def sampleStartedApp : StatusBarApp :=
  { sampleApp with Started := true, Recorder := sampleRecording }

/-- The key listener as `main` creates it with the default flags, after the
left command key (56) went down. -/
def sampleListener : KeyListener :=
  { NewKeyListener sampleApp "cmd_l+alt" false with
    KeysPressed := fun k => if k = 56 then true else false }

/-- A final transcript message that also holds a number out of the range of
`float64`. -/
def outOfRangeTranscript : Message :=
  some (.obj [ ("type", .str "transcript"),
               ("data", .obj [ ("is_final", .bool true),
                               ("utterance", .obj [("text", .str "hi")]) ]),
               ("n", .num "1e999") ])

/-- A network whose backend answers 200 with a `url` and a number out of the
range of `float64`; dialling succeeds. -/
def outOfRangeNetwork : Network :=
  { Do := fun _ => .ok
      { StatusCode := 200
        Body := { first := some (.obj [("url", .str "ws://x"), ("n", .num "1e999")]),
                  rest := "" } }
    Dial := fun _ => .ok sampleConn }

/-- A network whose backend answers 200 with a `url` followed by bytes that are
not JSON; dialling succeeds. -/
def trailingBytesNetwork : Network :=
  { Do := fun _ => .ok
      { StatusCode := 200
        Body := { first := some (.obj [("url", .str "ws://x")]), rest := " trailing" } }
    Dial := fun _ => .ok sampleConn }

/-- A network whose backend answers 202 with a `url`; dialling succeeds. -/
def acceptedStatusNetwork : Network :=
  { Do := fun _ => .ok
      { StatusCode := 202
        Body := { first := some (.obj [("url", .str "ws://x")]), rest := "" } }
    Dial := fun _ => .ok sampleConn }

/-! ## Theorems: the recorder -/

/-- C1: when `Recording` is true, `Start` returns the error "recording already in
progress", leaves the whole recorder state (in particular `Recording`,
`CurrentText` and `WebSocket`) unchanged and launches nothing, so
`startRecording` does not run a second time. -/
theorem start_while_recording_rejected (r : GladiaRecorder) (language : String)
    (h : r.Recording = true) :
    (r.Start language).2.1 = some "recording already in progress" ∧
    (r.Start language).1 = r ∧
    (r.Start language).1.Recording = r.Recording ∧
    (r.Start language).1.CurrentText = r.CurrentText ∧
    (r.Start language).1.WebSocket = r.WebSocket ∧
    (r.Start language).2.2 = [] := by
  simp [GladiaRecorder.Start, h]

theorem start_while_recording_rejected_witness :
    sampleRecording.Recording = true ∧
    (sampleRecording.Start "en").2.1 = some "recording already in progress" ∧
    (sampleRecording.Start "en").1 = sampleRecording ∧
    (sampleRecording.Start "en").1.Recording = sampleRecording.Recording ∧
    (sampleRecording.Start "en").1.CurrentText = sampleRecording.CurrentText ∧
    (sampleRecording.Start "en").1.WebSocket = sampleRecording.WebSocket ∧
    (sampleRecording.Start "en").2.2 = [] :=
  ⟨rfl, start_while_recording_rejected sampleRecording "en" rfl⟩

/-- C2: when `Recording` is false, `Stop` is a no-op: the recorder is unchanged
(`Recording` stays false, `CurrentText` keeps its value, so an empty buffer stays
empty) and no effect is requested, in particular nothing is sent on `Done`. -/
theorem stop_while_idle_noop (r : GladiaRecorder) (h : r.Recording = false) :
    r.Stop.1 = r ∧
    r.Stop.1.Recording = false ∧
    r.Stop.1.CurrentText = r.CurrentText ∧
    r.Stop.2 = [] ∧
    ∀ v, Effect.sendDone v ∉ r.Stop.2 := by
  simp [GladiaRecorder.Stop, h]

theorem stop_while_idle_noop_witness :
    sampleIdle.Recording = false ∧
    sampleIdle.Stop.1 = sampleIdle ∧
    sampleIdle.Stop.1.Recording = false ∧
    sampleIdle.Stop.1.CurrentText = sampleIdle.CurrentText ∧
    sampleIdle.Stop.2 = [] ∧
    ∀ v, Effect.sendDone v ∉ sampleIdle.Stop.2 :=
  ⟨rfl, stop_while_idle_noop sampleIdle rfl⟩

/-- C3, as stated, fails: started from the idle recorder on a network whose
negotiation request times out, `Start` returns no error, `startRecording`
returns through its first early return, and `Recording` is still true. -/
theorem failed_start_counterexample :
    sampleIdle.Recording = false ∧
    StartFails (sampleIdle.Start "en").1 unreachableNetwork "en" ∧
    (sampleIdle.Start "en").2.2 = [Effect.goStartRecording "en"] ∧
    (((sampleIdle.Start "en").1.startRecordingConnect unreachableNetwork "en").2.2).isNone
      = true ∧
    ((sampleIdle.Start "en").1.startRecordingConnect unreachableNetwork "en").1.Recording
      = true ∧
    (sampleIdle.Start "en").2.1 = none ∧
    ¬ (((sampleIdle.Start "en").1.startRecordingConnect unreachableNetwork "en").1.Recording
        = false ∧
       (sampleIdle.Start "en").2.1 ≠ none) := by
  refine ⟨rfl, Or.inl ⟨.transport "timeout", rfl⟩, rfl, rfl, rfl, rfl, ?_⟩
  intro h
  exact h.2 rfl

/-- C3, amended: from `Recording = false`, `Start` returns no error and launches
`startRecording` once; when the negotiation fails, the response has no string
`url`, or the dial fails, `startRecording` returns early without a connection,
leaves `WebSocket`, `CurrentText` and the API key as they were, and reports the
failure in its log only. -/
theorem failed_start_only_logged (r : GladiaRecorder) (net : Network) (language : String)
    (hidle : r.Recording = false) (hfail : StartFails r net language) :
    (r.Start language).2.1 = none ∧
    (r.Start language).2.2 = [Effect.goStartRecording language] ∧
    ((r.Start language).1.startRecordingConnect net language).2.2 = none ∧
    ((r.Start language).1.startRecordingConnect net language).1.WebSocket = r.WebSocket ∧
    ((r.Start language).1.startRecordingConnect net language).1.CurrentText = r.CurrentText ∧
    ((r.Start language).1.startRecordingConnect net language).1.APIKey = r.APIKey ∧
    (((r.Start language).1.startRecordingConnect net language).2.1.any isStartFailureLog)
      = true := by
  have hs : r.Start language =
      ({ r with Recording := true }, none, [Effect.goStartRecording language]) := by
    simp [GladiaRecorder.Start, hidle]
  rw [hs]
  rcases hfail with ⟨e, he⟩ | ⟨info, hinfo, hno⟩ | ⟨info, u, msg, hinfo, hu, hd⟩
  · simp [GladiaRecorder.startRecordingConnect, he, isStartFailureLog]
  · simp only [GladiaRecorder.startRecordingConnect, hinfo]
    cases hidx : GoMap.index info "url" with
    | none => simp [isStartFailureLog]
    | some v =>
      cases v with
      | str u => exact absurd hidx (hno u)
      | null => simp [isStartFailureLog]
      | bool b => simp [isStartFailureLog]
      | num n => simp [isStartFailureLog]
      | arr a => simp [isStartFailureLog]
      | obj o => simp [isStartFailureLog]
  · simp [GladiaRecorder.startRecordingConnect, hinfo, hu, hd, isStartFailureLog]

theorem failed_start_only_logged_witness :
    sampleIdle.Recording = false ∧ StartFails sampleIdle noURLNetwork "en" ∧
    ((sampleIdle.Start "en").2.1 = none ∧
    (sampleIdle.Start "en").2.2 = [Effect.goStartRecording "en"] ∧
    ((sampleIdle.Start "en").1.startRecordingConnect noURLNetwork "en").2.2 = none ∧
    ((sampleIdle.Start "en").1.startRecordingConnect noURLNetwork "en").1.WebSocket
      = sampleIdle.WebSocket ∧
    ((sampleIdle.Start "en").1.startRecordingConnect noURLNetwork "en").1.CurrentText
      = sampleIdle.CurrentText ∧
    ((sampleIdle.Start "en").1.startRecordingConnect noURLNetwork "en").1.APIKey
      = sampleIdle.APIKey ∧
    (((sampleIdle.Start "en").1.startRecordingConnect noURLNetwork "en").2.1.any
      isStartFailureLog) = true) :=
  have hf : StartFails sampleIdle noURLNetwork "en" :=
    Or.inr (Or.inl ⟨[("id", .str "s1")], rfl, by
      intro u h
      simp [GoMap.index] at h⟩)
  ⟨rfl, hf, failed_start_only_logged sampleIdle noURLNetwork "en" rfl hf⟩

/-- C4, as stated, fails: the final fragment with text " hi" applied to the empty
buffer yields "hi", not " hi". -/
theorem apply_fragment_counterexample :
    IsFinalFragment (transcriptMessage true " hi") " hi" ∧
    sampleIdle.CurrentText = "" ∧
    (sampleIdle.receiveStep (transcriptMessage true " hi")).1.CurrentText = "hi" ∧
    (sampleIdle.receiveStep (transcriptMessage true " hi")).1.CurrentText ≠ " hi" := by
  refine ⟨⟨_, _, _, rfl, rfl, rfl, rfl, rfl, rfl⟩, rfl, ?_, ?_⟩ <;> decide

/-- C4, amended: applying a final transcript fragment with text `t` yields the
buffer `TrimSpace t` when the buffer was empty and `b ++ " " ++ TrimSpace t` when
it held `b`: the text is appended with its surrounding white space removed,
separated from the previous contents by exactly one space.  The other fields of
the recorder are untouched. -/
theorem apply_fragment_trimmed (r : GladiaRecorder) (m : Message) (t : String)
    (h : IsFinalFragment m t) :
    (r.receiveStep m).1.CurrentText
      = (if r.CurrentText = "" then TrimSpace t else r.CurrentText ++ " " ++ TrimSpace t) ∧
    (r.receiveStep m).1.Recording = r.Recording ∧
    (r.receiveStep m).1.WebSocket = r.WebSocket ∧
    (r.receiveStep m).1.APIKey = r.APIKey := by
  obtain ⟨content, data, utterance, hm, hty, hdata, hfin, hutt, htext⟩ := h
  by_cases hb : r.CurrentText = ""
  · simp [GladiaRecorder.receiveStep, hm, hty, hdata, hfin, hutt, htext, hb]
  · simp [GladiaRecorder.receiveStep, hm, hty, hdata, hfin, hutt, htext, hb,
      String.append_assoc]

theorem apply_fragment_trimmed_witness :
    IsFinalFragment (transcriptMessage true " world ") " world " ∧
    ((sampleRecording.receiveStep (transcriptMessage true " world ")).1.CurrentText
      = (if sampleRecording.CurrentText = "" then TrimSpace " world "
         else sampleRecording.CurrentText ++ " " ++ TrimSpace " world ") ∧
    (sampleRecording.receiveStep (transcriptMessage true " world ")).1.Recording
      = sampleRecording.Recording ∧
    (sampleRecording.receiveStep (transcriptMessage true " world ")).1.WebSocket
      = sampleRecording.WebSocket ∧
    (sampleRecording.receiveStep (transcriptMessage true " world ")).1.APIKey
      = sampleRecording.APIKey) :=
  have hf : IsFinalFragment (transcriptMessage true " world ") " world " :=
    ⟨_, _, _, rfl, rfl, rfl, rfl, rfl, rfl⟩
  ⟨hf, apply_fragment_trimmed sampleRecording (transcriptMessage true " world ") " world " hf⟩

/-- A message that is not a final transcript leaves the recorder as it is. -/
theorem receiveStep_of_not_final (r : GladiaRecorder) (m : Message)
    (h : isFinalTranscript m = false) : (r.receiveStep m).1 = r := by
  unfold GladiaRecorder.receiveStep
  cases m with
  | none => simp [unmarshalMap]
  | some v =>
    cases v with
    | obj content =>
      by_cases hfit : numbersFitMembers content = true
      swap
      · simp [unmarshalMap, hfit]
      simp only [unmarshalMap, hfit, if_true]
      simp only [isFinalTranscript] at h
      split
      · split
        · split
          · split
            · split
              · rfl
              · split
                · split
                  · simp_all
                  · rfl
                · rfl
            · rfl
          · rfl
        · rfl
      · rfl
    | null => simp [unmarshalMap, GoMap.index]
    | bool b => simp [unmarshalMap]
    | num n => simp [unmarshalMap]
    | str t => simp [unmarshalMap]
    | arr a => simp [unmarshalMap]

/-- Dropping a message that is not a final transcript from the stream read by the
transcript goroutine does not change the recorder it ends with. -/
theorem receiveLoop_skip (m : Message) (h : isFinalTranscript m = false)
    (pre post : List (Except String Message)) (r : GladiaRecorder) :
    (r.receiveLoop (pre ++ .ok m :: post)).1 = (r.receiveLoop (pre ++ post)).1 := by
  induction pre generalizing r with
  | nil => simp [GladiaRecorder.receiveLoop, receiveStep_of_not_final r m h]
  | cons x pre ih =>
    cases x with
    | error e => simp [GladiaRecorder.receiveLoop]
    | ok m1 => simpa [GladiaRecorder.receiveLoop] using ih (r.receiveStep m1).1

/-- C5: a backend message that is not a transcript with `is_final = true`
(unparsable, not an object, `type` different from "transcript", `data` missing,
`is_final` false or missing) leaves the recorder, in particular `CurrentText`,
unchanged; hence removing such a message from anywhere in the stream read by the
receive loop changes neither the buffer the loop ends with nor the text drained
from it: interim text reaches the drained result only through final fragments. -/
theorem non_final_message_ignored (r : GladiaRecorder) (m : Message)
    (h : isFinalTranscript m = false) :
    (r.receiveStep m).1 = r ∧
    (r.receiveStep m).1.CurrentText = r.CurrentText ∧
    (∀ (pre post : List (Except String Message)),
      (r.receiveLoop (pre ++ .ok m :: post)).1 = (r.receiveLoop (pre ++ post)).1 ∧
      (r.receiveLoop (pre ++ .ok m :: post)).1.drainText.1
        = (r.receiveLoop (pre ++ post)).1.drainText.1) := by
  refine ⟨receiveStep_of_not_final r m h, ?_, ?_⟩
  · rw [receiveStep_of_not_final r m h]
  · intro pre post
    rw [receiveLoop_skip m h pre post r]
    exact ⟨rfl, rfl⟩

theorem non_final_message_ignored_witness :
    isFinalTranscript (transcriptMessage false "he") = false ∧
    ((sampleRecording.receiveStep (transcriptMessage false "he")).1 = sampleRecording ∧
    (sampleRecording.receiveStep (transcriptMessage false "he")).1.CurrentText
      = sampleRecording.CurrentText ∧
    (∀ (pre post : List (Except String Message)),
      (sampleRecording.receiveLoop (pre ++ .ok (transcriptMessage false "he") :: post)).1
        = (sampleRecording.receiveLoop (pre ++ post)).1 ∧
      (sampleRecording.receiveLoop
          (pre ++ .ok (transcriptMessage false "he") :: post)).1.drainText.1
        = (sampleRecording.receiveLoop (pre ++ post)).1.drainText.1)) :=
  ⟨rfl, non_final_message_ignored sampleRecording (transcriptMessage false "he") rfl⟩

/-- C6: draining (the locked read-and-reset at the start of `typeText`) returns
exactly the `CurrentText` accumulated so far and leaves `CurrentText` empty and
the other fields as they were, for every recorder; a second drain right after
returns the empty string; `typeText` leaves the recorder in the drained state
and hands on the drained text when it is not empty. -/
theorem drain_returns_and_resets (r : GladiaRecorder) :
    r.drainText.1 = r.CurrentText ∧
    r.drainText.2.CurrentText = "" ∧
    r.drainText.2.Recording = r.Recording ∧
    r.drainText.2.WebSocket = r.WebSocket ∧
    r.drainText.2.drainText.1 = "" ∧
    r.typeText.1 = r.drainText.2 ∧
    r.typeText.2.2 = (if r.CurrentText = "" then none else some r.CurrentText) ∧
    r.typeText.1.typeText.2.2 = none := by
  by_cases h : r.CurrentText = "" <;>
    simp [GladiaRecorder.drainText, GladiaRecorder.typeText, h]

/-! ## Theorems: base64 -/

/-- The decode table inverts the encode table on the 64 six-bit values. -/
theorem decodeMap_encodeChar (i : Nat) (h : i < 64) : decodeMap (encodeChar i) = some i := by
  have key : ∀ j : Fin 64, decodeMap (encodeChar j.val) = some j.val := by decide
  exact key ⟨i, h⟩

/-- No alphabet character is a line break. -/
theorem encodeChar_not_newline (i : Nat) (h : i < 64) :
    (encodeChar i != '\n' && encodeChar i != '\r') = true := by
  have key : ∀ j : Fin 64, (encodeChar j.val != '\n' && encodeChar j.val != '\r') = true := by
    decide
  exact key ⟨i, h⟩

/-- The padding character is not in the alphabet. -/
theorem decodeMap_padChar : decodeMap padChar = none := by decide

/-- Decoding the quanta of an encoding gives the bytes back. -/
theorem decodeQuanta_encodeList : ∀ src : List Byte, decodeQuanta (encodeList src) = some src
  | [] => by simp [encodeList, decodeQuanta]
  | [a] => by
    have ha := a.isLt
    simp only [encodeList, decodeQuanta, decodeMap_encodeChar _ (Nat.mod_lt _ (by decide)),
      decodeMap_padChar]
    simp only [and_self, if_true, Option.some.injEq, List.cons.injEq, and_true]
    apply Fin.ext
    simp only [Fin.ofNat, Fin.val_mk]
    omega
  | [a, b] => by
    have ha := a.isLt
    have hb := b.isLt
    simp only [encodeList, decodeQuanta, decodeMap_encodeChar _ (Nat.mod_lt _ (by decide)),
      decodeMap_padChar]
    simp only [and_self, if_true, Option.some.injEq, List.cons.injEq, and_true]
    constructor <;> apply Fin.ext <;> simp only [Fin.ofNat, Fin.val_mk] <;> omega
  | a :: b :: c :: rest => by
    have ha := a.isLt
    have hb := b.isLt
    have hc := c.isLt
    simp only [encodeList, decodeQuanta, decodeMap_encodeChar _ (Nat.mod_lt _ (by decide)),
      decodeQuanta_encodeList rest]
    simp only [Option.some.injEq, List.cons.injEq, and_true]
    refine ⟨?_, ?_, ?_⟩ <;> apply Fin.ext <;> simp only [Fin.ofNat, Fin.val_mk] <;> omega

/-- An encoding contains no line break. -/
theorem encodeList_no_newline : ∀ src : List Byte,
    (encodeList src).filter (fun c => c != '\n' && c != '\r') = encodeList src
  | [] => by simp [encodeList]
  | [a] => by
    simp [encodeList, List.filter, encodeChar_not_newline _ (Nat.mod_lt _ (by decide : 0 < 64)),
      padChar]
  | [a, b] => by
    simp [encodeList, List.filter, encodeChar_not_newline _ (Nat.mod_lt _ (by decide : 0 < 64)),
      padChar]
  | a :: b :: c :: rest => by
    have ih := encodeList_no_newline rest
    simp only [encodeList, List.filter,
      encodeChar_not_newline _ (Nat.mod_lt _ (by decide : 0 < 64)), ih]

/-- `DecodeString` inverts `EncodeToString`. -/
theorem DecodeString_EncodeToString (src : List Byte) :
    DecodeString (EncodeToString src) = some src := by
  simp only [DecodeString, EncodeToString]
  rw [encodeList_no_newline, decodeQuanta_encodeList]

/-! ## Theorems: the Twilio relay -/

/-- The envelope of a payload parses into the message carrying its encoding. -/
theorem unmarshal_mediaEnvelope (b : List Byte) :
    unmarshalTwilioMessage (mediaEnvelope b)
      = ({ Event := "media", Media := { Payload := EncodeToString b } }, none) := by
  rfl

/-- On a connection in working order `processMessage` writes the decoded payload
of an accepted frame, and nothing for any other message; the connection stays
in working order. -/
theorem processMessage_sent (m : Message) (gladiaConn : Conn)
    (h : gladiaConn.writeErr = false) :
    (processMessage m gladiaConn).1.writeErr = false ∧
    (processMessage m gladiaConn).1.sent
      = gladiaConn.sent ++ (acceptedAudio m).toList.map Frame.binary := by
  unfold processMessage acceptedAudio
  rcases hu : unmarshalTwilioMessage m with ⟨msg, err⟩
  cases err with
  | some e => simp [h]
  | none =>
    by_cases hev : msg.Event = "media"
    · cases hd : DecodeString msg.Media.Payload with
      | none => simp [hev, hd, h]
      | some mulaw => simp [hev, hd, h, Conn.WriteMessage]
    · simp [hev, h]

/-- C7: for every byte sequence `b`, the standard base64 decoding of the encoding
of `b` is `b`, and `processMessage` given the media envelope with payload
`base64Std(b)` writes to a backend connection in working order exactly one
message, the binary message with payload `b`, and logs nothing. -/
theorem media_payload_round_trip (b : List Byte) (gladiaConn : Conn)
    (h : gladiaConn.writeErr = false) :
    DecodeString (EncodeToString b) = some b ∧
    (processMessage (mediaEnvelope b) gladiaConn).1.sent
      = gladiaConn.sent ++ [Frame.binary b] ∧
    (processMessage (mediaEnvelope b) gladiaConn).2 = [] := by
  refine ⟨DecodeString_EncodeToString b, ?_, ?_⟩
  · simp [processMessage, unmarshal_mediaEnvelope, DecodeString_EncodeToString,
      Conn.WriteMessage, h]
  · simp [processMessage, unmarshal_mediaEnvelope, DecodeString_EncodeToString,
      Conn.WriteMessage, h]

theorem media_payload_round_trip_witness :
    sampleConn.writeErr = false ∧
    (DecodeString (EncodeToString [0, 255, 128, 7]) = some [0, 255, 128, 7] ∧
    (processMessage (mediaEnvelope [0, 255, 128, 7]) sampleConn).1.sent
      = sampleConn.sent ++ [Frame.binary [0, 255, 128, 7]] ∧
    (processMessage (mediaEnvelope [0, 255, 128, 7]) sampleConn).2 = []) :=
  ⟨rfl, media_payload_round_trip [0, 255, 128, 7] sampleConn rfl⟩

/-- The relay loop over messages read without error, on a connection in working
order. -/
theorem twilioToGladia_sent (msgs : List Message) (tail : List (Except String Message))
    (htail : tail = [] ∨ ∃ e rest, tail = .error e :: rest) :
    ∀ gladiaConn : Conn, gladiaConn.writeErr = false →
      (twilioToGladia gladiaConn (msgs.map .ok ++ tail)).1.sent
        = gladiaConn.sent ++ (msgs.filterMap acceptedAudio).map Frame.binary := by
  induction msgs with
  | nil =>
    intro c _
    rcases htail with rfl | ⟨e, rest, rfl⟩ <;> simp [twilioToGladia]
  | cons m msgs ih =>
    intro c hc
    have hp := processMessage_sent m c hc
    have hstep : (twilioToGladia c ((m :: msgs).map .ok ++ tail)).1
        = (twilioToGladia (processMessage m c).1 (msgs.map .ok ++ tail)).1 := by
      simp [twilioToGladia]
    rw [hstep, ih _ hp.1, hp.2]
    cases hacc : acceptedAudio m <;> simp [List.filterMap_cons, hacc]

/-- C8: for every finite sequence of messages read by the Twilio-to-Gladia loop
before its first read error, on a backend connection whose writes succeed, the
binary messages written are exactly the decoded payloads of the accepted
messages (those that parse, have event "media" and a valid base64 payload), in
arrival order and once each; a message that is not accepted writes nothing, and
the messages after it are still processed. -/
theorem relay_forwards_accepted_in_order (msgs : List Message) (e : String)
    (rest : List (Except String Message)) (gladiaConn : Conn)
    (h : gladiaConn.writeErr = false) :
    (twilioToGladia gladiaConn (msgs.map .ok ++ .error e :: rest)).1.sent
      = gladiaConn.sent ++ (msgs.filterMap acceptedAudio).map Frame.binary ∧
    (twilioToGladia gladiaConn (msgs.map .ok)).1.sent
      = gladiaConn.sent ++ (msgs.filterMap acceptedAudio).map Frame.binary ∧
    (∀ m, acceptedAudio m = none → (processMessage m gladiaConn).1 = gladiaConn) := by
  refine ⟨twilioToGladia_sent msgs _ (Or.inr ⟨e, rest, rfl⟩) gladiaConn h, ?_, ?_⟩
  · simpa using twilioToGladia_sent msgs [] (Or.inl rfl) gladiaConn h
  · intro m hm
    unfold acceptedAudio at hm
    unfold processMessage
    rcases hu : unmarshalTwilioMessage m with ⟨msg, err⟩
    rw [hu] at hm
    cases err with
    | some e1 => rfl
    | none =>
      by_cases hev : msg.Event = "media"
      · simp only [hev, if_true] at hm
        simp [hev, hm]
      · simp [hev]

theorem relay_forwards_accepted_in_order_witness :
    sampleConn.writeErr = false ∧
    sampleTwilioMessages.filterMap acceptedAudio = [[1, 2, 3], [4]] ∧
    ((twilioToGladia sampleConn (sampleTwilioMessages.map .ok ++ .error "closed" :: [])).1.sent
      = sampleConn.sent ++ (sampleTwilioMessages.filterMap acceptedAudio).map Frame.binary ∧
    (twilioToGladia sampleConn (sampleTwilioMessages.map .ok)).1.sent
      = sampleConn.sent ++ (sampleTwilioMessages.filterMap acceptedAudio).map Frame.binary ∧
    (∀ m, acceptedAudio m = none → (processMessage m sampleConn).1 = sampleConn)) :=
  ⟨rfl, by decide,
    relay_forwards_accepted_in_order sampleTwilioMessages "closed" [] sampleConn rfl⟩

/-- C9, as stated, fails: a 200 response whose body is the empty object has
neither an id nor a url, and `createSession` returns the zero session with no
error. -/
theorem createSession_missing_fields_counterexample :
    emptyObjectResponse.StatusCode = 200 ∧
    emptyObjectResponse.Body.first = some (.obj []) ∧
    emptyObjectResponse.Body.rest = "" ∧
    (createSession "key" (fun _ => .ok emptyObjectResponse)).1 = (zeroSession, none) ∧
    ¬ ((createSession "key" (fun _ => .ok emptyObjectResponse)).1.2 ≠ none) := by
  refine ⟨rfl, rfl, rfl, rfl, ?_⟩
  intro h
  exact h rfl

/-- C9, amended: `createSession` succeeds if and only if the request is answered
with a status in 200..299 and a body whose first JSON value decodes into a
`GladiaSession`; the session returned is then the decoded one.  A status outside
200..299 and a body that does not start with a JSON value yield an error, and on
every error the session returned is the zero session.  What follows the first
JSON value of the body is not read and changes nothing.  A body that lacks the
id or the url is accepted: the missing field is the empty string. -/
theorem createSession_succeeds_iff (gladiaAPIKey : String)
    (clientDo : HttpRequest → Except String HttpResponse) :
    ((createSession gladiaAPIKey clientDo).1.2 = none ↔
      ∃ resp, clientDo (createSessionRequest gladiaAPIKey) = .ok resp ∧
        200 ≤ resp.StatusCode ∧ resp.StatusCode < 300 ∧
        (decodeGladiaSession resp.Body).2 = none) ∧
    (∀ resp, clientDo (createSessionRequest gladiaAPIKey) = .ok resp →
      (createSession gladiaAPIKey clientDo).1.2 = none →
      (createSession gladiaAPIKey clientDo).1.1 = (decodeGladiaSession resp.Body).1) ∧
    (∀ resp, clientDo (createSessionRequest gladiaAPIKey) = .ok resp →
      (resp.StatusCode < 200 ∨ 300 ≤ resp.StatusCode) →
      (createSession gladiaAPIKey clientDo).1
        = (zeroSession, some (.badStatusCode resp.StatusCode))) ∧
    (∀ resp, clientDo (createSessionRequest gladiaAPIKey) = .ok resp →
      resp.Body.first = none → (createSession gladiaAPIKey clientDo).1.2 ≠ none) ∧
    ((createSession gladiaAPIKey clientDo).1.2 ≠ none →
      (createSession gladiaAPIKey clientDo).1.1 = zeroSession) ∧
    (∀ first rest1 rest2, decodeGladiaSession { first := first, rest := rest1 }
      = decodeGladiaSession { first := first, rest := rest2 }) ∧
    (∀ rest, decodeGladiaSession { first := some (.obj []), rest := rest }
      = (zeroSession, none)) ∧
    (∀ i rest, decodeGladiaSession { first := some (.obj [("id", .str i)]), rest := rest }
      = ({ ID := i, URL := "" }, none)) ∧
    (∀ u rest, decodeGladiaSession { first := some (.obj [("url", .str u)]), rest := rest }
      = ({ ID := "", URL := u }, none)) ∧
    (∀ i u rest,
      decodeGladiaSession { first := some (.obj [("id", .str i), ("url", .str u)]), rest := rest }
        = ({ ID := i, URL := u }, none)) := by
  refine ⟨?_, ?_, ?_, ?_, ?_, fun _ _ _ => rfl, fun _ => rfl, fun _ _ => rfl, fun _ _ => rfl,
    fun _ _ _ => rfl⟩
  · unfold createSession
    cases hdo : clientDo (createSessionRequest gladiaAPIKey) with
    | error msg => simp
    | ok resp =>
      by_cases hs : resp.StatusCode < 200 ∨ resp.StatusCode ≥ 300
      · simp only [hs, if_true]
        constructor
        · intro h
          cases h
        · rintro ⟨resp1, h1, h2, h3, _⟩
          cases h1
          omega
      · rcases hd : decodeGladiaSession resp.Body with ⟨data, err⟩
        cases err with
        | some e =>
          simp only [hs, if_false, hd]
          constructor
          · intro h
            cases h
          · rintro ⟨resp1, h1, _, _, h4⟩
            cases h1
            rw [hd] at h4
            cases h4
        | none =>
          simp only [hs, if_false, hd]
          simp only [true_iff]
          exact ⟨resp, rfl, by omega, by omega, by rw [hd]⟩
  · intro resp hdo
    unfold createSession
    rw [hdo]
    by_cases hs : resp.StatusCode < 200 ∨ resp.StatusCode ≥ 300
    · simp [hs]
    · rcases hd : decodeGladiaSession resp.Body with ⟨data, err⟩
      cases err <;> simp [hs, hd]
  · intro resp hdo hs
    unfold createSession
    rw [hdo]
    have hs1 : resp.StatusCode < 200 ∨ resp.StatusCode ≥ 300 := hs
    simp [hs1, zeroSession]
  · intro resp hdo hb
    unfold createSession
    rw [hdo]
    by_cases hs : resp.StatusCode < 200 ∨ resp.StatusCode ≥ 300
    · simp [hs]
    · simp [hs, hb, decodeGladiaSession]
  · unfold createSession
    cases hdo : clientDo (createSessionRequest gladiaAPIKey) with
    | error msg => simp [zeroSession]
    | ok resp =>
      by_cases hs : resp.StatusCode < 200 ∨ resp.StatusCode ≥ 300
      · simp [hs, zeroSession]
      · rcases hd : decodeGladiaSession resp.Body with ⟨data, err⟩
        cases err <;> simp [hs, hd, zeroSession]

/-- The wire message with a string `type`, a boolean `is_final` and a string
text parses into the struct carrying the three. -/
theorem unmarshal_backendMessage (type : String) (isFinal : Bool) (text : String) :
    unmarshalGladiaMessage (backendMessage type isFinal text)
      = ({ Type_ := type, Data := { IsFinal := isFinal, Utterance := { Text := text } } },
         none) := by
  rfl

/-- C10: for every backend message, `handleGladia` returns the utterance text of
the message when the message parses with `type` "transcript" and
`data.is_final` true, and the empty string in every other case: unparsable
input, another `type`, `is_final` false or absent. -/
theorem handleGladia_returns_final_text (message : Message) :
    (IsFinalGladiaTranscript message →
      (handleGladia message).1 = (unmarshalGladiaMessage message).1.Data.Utterance.Text) ∧
    (¬ IsFinalGladiaTranscript message → (handleGladia message).1 = "") ∧
    (handleGladia none).1 = "" ∧
    (∀ type isFinal text, (handleGladia (backendMessage type isFinal text)).1
      = (if type = "transcript" ∧ isFinal = true then text else "")) ∧
    (∀ text, (handleGladia (transcriptWithoutIsFinal text)).1 = "") := by
  refine ⟨?_, ?_, rfl, ?_, fun _ => rfl⟩
  · rintro ⟨h1, h2, h3⟩
    unfold handleGladia
    rcases hu : unmarshalGladiaMessage message with ⟨msg, err⟩
    rw [hu] at h1 h2 h3
    simp only at h1 h2 h3
    subst h1
    simp [h2, h3]
  · intro hn
    unfold handleGladia
    rcases hu : unmarshalGladiaMessage message with ⟨msg, err⟩
    cases err with
    | some e => rfl
    | none =>
      by_cases hc : msg.Type_ = "transcript" ∧ msg.Data.IsFinal = true
      · exact absurd (show IsFinalGladiaTranscript message by
          unfold IsFinalGladiaTranscript
          rw [hu]
          exact ⟨rfl, hc.1, hc.2⟩) hn
      · simp [hc]
  · intro type isFinal text
    unfold handleGladia
    rw [unmarshal_backendMessage]
    by_cases hc : type = "transcript" ∧ isFinal = true
    · simp [hc]
    · simp only [hc, if_false]

/-! ## Theorems: the audio goroutine -/

/-- An audio chunk frame is an `audio_chunk` message and not a `stop_recording`
message. -/
theorem audioChunk_frame_kind (buffer : List Int) :
    isAudioChunk (.text (audioChunkMessage buffer)) = true ∧
    isStopRecording (.text (audioChunkMessage buffer)) = false :=
  ⟨rfl, rfl⟩

/-- What the audio loop writes: the chunks of the iterations before the first
failure, followed by `stop_recording` when the run has no failure and the
`stop_recording` write itself succeeds. -/
theorem audioSendLoop_sent (stopWriteFails : Bool) (ticks : List AudioTick) :
    ∀ conn : Conn, (audioSendLoop conn stopWriteFails ticks).conn.sent
      = conn.sent ++
        (if conn.writeErr then []
         else (writtenChunks ticks).map (fun b => Frame.text (audioChunkMessage b)) ++
           (if endsByStop ticks && !stopWriteFails then [Frame.text stopRecordingMessage]
            else [])) := by
  induction ticks with
  | nil =>
    intro conn
    by_cases h : conn.writeErr = true <;> cases stopWriteFails <;>
      simp [audioSendLoop, Conn.WriteMessage, writtenChunks, endsByStop, h]
  | cons t rest ih =>
    intro conn
    cases t with
    | readError msg => simp [audioSendLoop, writtenChunks, endsByStop]
    | chunk buffer writeFails =>
      by_cases h : conn.writeErr = true
      · cases writeFails <;> simp [audioSendLoop, Conn.WriteMessage, h]
      · cases writeFails with
        | true => simp [audioSendLoop, Conn.WriteMessage, writtenChunks, endsByStop, h]
        | false =>
          have h1 : conn.writeErr = false := by simpa using h
          simp only [audioSendLoop, Conn.WriteMessage, h1, Bool.false_eq_true, if_false]
          rw [ih]
          simp [writtenChunks, endsByStop, h1]

/-- In a list of chunk frames optionally followed by `stop_recording`, a
`stop_recording` frame is the last element and only chunks precede it. -/
theorem stop_is_last (chunks : List (List Int)) (stop : Bool) (f : Frame)
    (hf : isStopRecording f = true) :
    ∀ (pre post : List Frame),
      chunks.map (fun b => Frame.text (audioChunkMessage b)) ++
          (if stop then [Frame.text stopRecordingMessage] else []) = pre ++ f :: post →
      post = [] ∧ ∀ g ∈ pre, isAudioChunk g = true := by
  induction chunks with
  | nil =>
    intro pre post h
    cases stop with
    | false => simp at h
    | true =>
      cases pre with
      | nil => simp at h; simp [h.2]
      | cons g pre => simp at h
  | cons b chunks ih =>
    intro pre post h
    cases pre with
    | nil =>
      simp only [List.map_cons, List.cons_append, List.nil_append, List.cons.injEq] at h
      rw [← h.1, (audioChunk_frame_kind b).2] at hf
      cases hf
    | cons g pre =>
      simp only [List.map_cons, List.cons_append, List.cons.injEq] at h
      obtain ⟨hpost, hpre⟩ := ih pre post h.2
      refine ⟨hpost, ?_⟩
      intro g1 hg1
      rcases List.mem_cons.mp hg1 with rfl | hmem
      · rw [← h.1]
        exact (audioChunk_frame_kind b).1
      · exact hpre g1 hmem

/-- A list of chunk frames holds no `stop_recording` frame. -/
theorem countP_stop_chunks (chunks : List (List Int)) :
    (chunks.map (fun b => Frame.text (audioChunkMessage b))).countP isStopRecording = 0 := by
  induction chunks with
  | nil => rfl
  | cons b chunks ih =>
    simp only [List.map_cons]
    rw [List.countP_cons_of_neg]
    · exact ih
    · simp [(audioChunk_frame_kind b).2]

/-- C11, as stated, fails: in the run that sends one buffer and then gets a read
error from the audio stream, the goroutine returns having written the one
`audio_chunk` message and no `stop_recording`; the connection is closed, once
`Stop` has sent on `Done`, without it. -/
theorem stop_recording_counterexample :
    (audioGoroutine .ready sampleConn sampleFailingTicks false).conn.sent
      = [Frame.text (audioChunkMessage [1, -2])] ∧
    (audioGoroutine .ready sampleConn sampleFailingTicks false).conn.sent.countP isStopRecording
      = 0 ∧
    (audioGoroutine .ready sampleConn sampleFailingTicks false).typeTextLaunched = false ∧
    (audioThenClose .ready sampleConn sampleFailingTicks false true).sent
      = [Frame.text (audioChunkMessage [1, -2])] ∧
    ¬ ((audioThenClose .ready sampleConn sampleFailingTicks false true).sent.countP
        isStopRecording = 1) := by
  refine ⟨rfl, rfl, rfl, rfl, ?_⟩
  intro h
  have h0 : (audioThenClose .ready sampleConn sampleFailingTicks false true).sent.countP
      isStopRecording = 0 := rfl
  rw [h0] at h
  cases h

/-- C11, amended: in every run of the audio goroutine the messages it writes to
the backend connection contain `stop_recording` at most once, and a
`stop_recording` written is the last message, with only `audio_chunk` messages
before it.  When the loop ends because `Recording` is found false, after chunk
writes that all succeeded, `typeText` is launched and the messages written are
the `audio_chunk` messages of the buffers read, followed by `stop_recording`
exactly once if the `stop_recording` write succeeds and by nothing if that
write fails.  The connection is closed after these writes, once `Stop` has sent
on `Done`, and nothing is written after the close. -/
theorem stop_recording_last_at_most_once (setup : AudioSetup) (conn : Conn)
    (ticks : List AudioTick) (stopWriteFails : Bool) :
    ∃ written : List Frame,
      (audioGoroutine setup conn ticks stopWriteFails).conn.sent = conn.sent ++ written ∧
      written.countP isStopRecording ≤ 1 ∧
      (∀ (pre post : List Frame) (f : Frame), written = pre ++ f :: post →
        isStopRecording f = true → post = [] ∧ ∀ g ∈ pre, isAudioChunk g = true) ∧
      (setup = .ready → conn.writeErr = false → endsByStop ticks = true →
        (audioGoroutine setup conn ticks stopWriteFails).typeTextLaunched = true ∧
        written = (writtenChunks ticks).map (fun b => Frame.text (audioChunkMessage b)) ++
          (if stopWriteFails then [] else [Frame.text stopRecordingMessage]) ∧
        written.countP isStopRecording = (if stopWriteFails then 0 else 1)) ∧
      (∀ doneReceived,
        (audioThenClose setup conn ticks stopWriteFails doneReceived).sent
          = conn.sent ++ written) ∧
      (∀ f, ((audioThenClose setup conn ticks stopWriteFails true).WriteMessage f).1.sent
        = conn.sent ++ written) := by
  have hstop : isStopRecording (Frame.text stopRecordingMessage) = true := rfl
  have hshape : ∀ (chunks : List (List Int)) (stop : Bool),
      (chunks.map (fun b => Frame.text (audioChunkMessage b)) ++
        (if stop then [Frame.text stopRecordingMessage] else [])).countP isStopRecording
        ≤ 1 := by
    intro chunks stop
    rw [List.countP_append, countP_stop_chunks]
    cases stop <;> simp [List.countP_cons, hstop]
  have hlaunch : ∀ (ts : List AudioTick) (c : Conn), c.writeErr = false →
      endsByStop ts = true → (audioSendLoop c stopWriteFails ts).typeTextLaunched = true := by
    intro ts
    induction ts with
    | nil => intro c _ _; rfl
    | cons t rest ih =>
      intro c hc he
      cases t with
      | readError msg => simp [endsByStop] at he
      | chunk buffer writeFails =>
        cases writeFails with
        | true => simp [endsByStop] at he
        | false =>
          simp only [endsByStop] at he
          simp only [audioSendLoop, Conn.WriteMessage, hc, Bool.false_eq_true, if_false]
          exact ih _ rfl he
  by_cases hready : setup = .ready
  · subst hready
    by_cases hw : conn.writeErr = true
    · refine ⟨[], ?_, by simp, ?_, ?_, ?_, ?_⟩
      · simp [audioGoroutine, audioSendLoop_sent, hw]
      · intro pre post f h
        simp at h
      · intro _ h
        rw [hw] at h
        cases h
      · intro d
        cases d <;> simp [audioThenClose, Conn.Close, audioGoroutine, audioSendLoop_sent, hw]
      · intro f
        simp [audioThenClose, Conn.Close, Conn.WriteMessage, audioGoroutine,
          audioSendLoop_sent, hw]
    · have hw1 : conn.writeErr = false := by simpa using hw
      refine ⟨(writtenChunks ticks).map (fun b => Frame.text (audioChunkMessage b)) ++
          (if endsByStop ticks && !stopWriteFails then [Frame.text stopRecordingMessage]
           else []),
        ?_, hshape _ _, ?_, ?_, ?_, ?_⟩
      · simp [audioGoroutine, audioSendLoop_sent, hw1]
      · intro pre post f h hf
        exact stop_is_last _ _ f hf pre post h
      · intro _ _ he
        refine ⟨hlaunch ticks conn hw1 he, ?_, ?_⟩
        · cases stopWriteFails <;> simp [he]
        · rw [List.countP_append, countP_stop_chunks]
          cases stopWriteFails <;> simp [he, List.countP_cons, hstop]
      · intro d
        cases d <;> simp [audioThenClose, Conn.Close, audioGoroutine, audioSendLoop_sent, hw1]
      · intro f
        simp [audioThenClose, Conn.Close, Conn.WriteMessage, audioGoroutine,
          audioSendLoop_sent, hw1]
  · refine ⟨[], ?_, by simp, ?_, ?_, ?_, ?_⟩
    · cases setup <;> simp [audioGoroutine] at hready ⊢
    · intro pre post f h
      simp at h
    · intro h
      exact absurd h hready
    · intro d
      cases setup <;> cases d <;>
        simp [audioThenClose, Conn.Close, audioGoroutine] at hready ⊢
    · intro f
      cases setup <;>
        simp [audioThenClose, Conn.Close, Conn.WriteMessage, audioGoroutine] at hready ⊢

/-- The two bytes of a sample are the low and the high byte of its
two's-complement representation, and read back as a signed 16-bit integer they
give the sample. -/
theorem sample_bytes (sample : Int) (h : -32768 ≤ sample ∧ sample ≤ 32767) :
    ((lowByte sample).val : Int) = twosComplement16 sample % 256 ∧
    ((highByte sample).val : Int) = twosComplement16 sample / 256 ∧
    asSigned16 ((lowByte sample).val + 256 * (highByte sample).val) = sample := by
  have hlo : ((lowByte sample).val : Int) = sample % 256 := by
    simp only [lowByte, Fin.ofNat, Fin.val_mk]
    omega
  have hhi : ((highByte sample).val : Int) = (sample / 256) % 256 := by
    simp only [highByte, Fin.ofNat, Fin.val_mk]
    omega
  refine ⟨?_, ?_, ?_⟩
  · rw [hlo, twosComplement16]
    omega
  · rw [hhi, twosComplement16]
    omega
  · rw [hlo, hhi]
    unfold asSigned16
    split <;> omega

/-- The bytes of the audio buffer, by position. -/
theorem audioBytes_getElem (buffer : List Int) :
    ∀ (i : Nat) (hi : i < buffer.length),
      (audioBytes buffer)[2 * i]? = some (lowByte buffer[i]) ∧
      (audioBytes buffer)[2 * i + 1]? = some (highByte buffer[i]) := by
  induction buffer with
  | nil => intro i hi; simp at hi
  | cons s rest ih =>
    intro i hi
    cases i with
    | zero => simp [audioBytes]
    | succ j =>
      have hj : j < rest.length := by simpa using hi
      have h2 : 2 * (j + 1) = 2 * j + 1 + 1 := by ring
      have := ih j hj
      simp only [audioBytes, h2, List.getElem?_cons_succ, List.getElem_cons_succ]
      exact this

/-- C12: the sample-to-byte conversion is little-endian 16-bit PCM: a buffer of
`n` int16 samples gives `2n` bytes, and for every `i < n` the bytes at `2i` and
`2i+1` are the low and the high byte of the two's-complement representation of
sample `i`, so that `byte[2i] + 256 * byte[2i+1]` read as a signed 16-bit
integer is sample `i`, negative samples included. -/
theorem audioBytes_little_endian (buffer : List Int)
    (h : ∀ s ∈ buffer, -32768 ≤ s ∧ s ≤ 32767) :
    (audioBytes buffer).length = 2 * buffer.length ∧
    ∀ (i : Nat) (hi : i < buffer.length),
      (audioBytes buffer)[2 * i]? = some (lowByte buffer[i]) ∧
      (audioBytes buffer)[2 * i + 1]? = some (highByte buffer[i]) ∧
      ((lowByte buffer[i]).val : Int) = twosComplement16 buffer[i] % 256 ∧
      ((highByte buffer[i]).val : Int) = twosComplement16 buffer[i] / 256 ∧
      asSigned16 ((lowByte buffer[i]).val + 256 * (highByte buffer[i]).val) = buffer[i] := by
  constructor
  · clear h
    induction buffer with
    | nil => rfl
    | cons s rest ih => simp [audioBytes, ih]; ring
  · intro i hi
    have hb := sample_bytes buffer[i] (h _ (List.getElem_mem hi))
    have hg := audioBytes_getElem buffer i hi
    exact ⟨hg.1, hg.2, hb.1, hb.2.1, hb.2.2⟩

theorem audioBytes_little_endian_witness :
    (∀ s ∈ ([1, -2, -32768, 32767] : List Int), -32768 ≤ s ∧ s ≤ 32767) ∧
    audioBytes [1, -2, -32768, 32767] = [1, 0, 254, 255, 0, 128, 255, 127] ∧
    ((audioBytes [1, -2, -32768, 32767]).length = 2 * ([1, -2, -32768, 32767] : List Int).length ∧
    ∀ (i : Nat) (hi : i < ([1, -2, -32768, 32767] : List Int).length),
      (audioBytes [1, -2, -32768, 32767])[2 * i]?
        = some (lowByte ([1, -2, -32768, 32767] : List Int)[i]) ∧
      (audioBytes [1, -2, -32768, 32767])[2 * i + 1]?
        = some (highByte ([1, -2, -32768, 32767] : List Int)[i]) ∧
      ((lowByte ([1, -2, -32768, 32767] : List Int)[i]).val : Int)
        = twosComplement16 ([1, -2, -32768, 32767] : List Int)[i] % 256 ∧
      ((highByte ([1, -2, -32768, 32767] : List Int)[i]).val : Int)
        = twosComplement16 ([1, -2, -32768, 32767] : List Int)[i] / 256 ∧
      asSigned16 ((lowByte ([1, -2, -32768, 32767] : List Int)[i]).val
          + 256 * (highByte ([1, -2, -32768, 32767] : List Int)[i]).val)
        = ([1, -2, -32768, 32767] : List Int)[i]) :=
  have hr : ∀ s ∈ ([1, -2, -32768, 32767] : List Int), -32768 ≤ s ∧ s ≤ 32767 := by decide
  ⟨hr, by decide, audioBytes_little_endian [1, -2, -32768, 32767] hr⟩

/-! ## Theorems: status bar application and key listener -/

/-- `Stop` keeps the invariant and does not log a start error. -/
theorem app_stop_consistent (app : StatusBarApp) (h : app.Consistent) :
    app.Stop.1.Consistent ∧ app.Stop.1.Started = false ∧
    app.Stop.1.Recorder.Recording = false ∧ app.Stop.2.any isStartError = false := by
  unfold StatusBarApp.Consistent at h ⊢
  cases hs : app.Started with
  | false =>
    rw [hs] at h
    simp [StatusBarApp.Stop, hs, ← h]
  | true =>
    rw [hs] at h
    cases ht : app.Timer <;>
      simp [StatusBarApp.Stop, hs, GladiaRecorder.Stop, ← h, ht, isStartError]

/-- `Start` keeps the invariant; from `Started = false` it ends started and does
not reach the error branch. -/
theorem app_start_consistent (app : StatusBarApp) (now : Time) (h : app.Consistent) :
    (app.Start now).1.Consistent ∧
    (app.Started = false →
      (app.Start now).1.Started = true ∧ (app.Start now).1.Recorder.Recording = true ∧
      (app.Start now).2.any isStartError = false) := by
  unfold StatusBarApp.Consistent at h ⊢
  cases hs : app.Started with
  | false =>
    rw [hs] at h
    by_cases hm : app.MaxTime > 0 <;>
      simp [StatusBarApp.Start, GladiaRecorder.Start, ← h, hm, isStartError]
  | true =>
    rw [hs] at h
    cases ht : app.Timer <;>
      simp [StatusBarApp.Start, StatusBarApp.Stop, GladiaRecorder.Start, GladiaRecorder.Stop,
        ← h, ht]

/-- Every event keeps the invariant and does not reach the error branch of
`StatusBarApp.Start`. -/
theorem app_handle_consistent (app : StatusBarApp) (ev : AppEvent) (h : app.Consistent) :
    (app.handle ev).1.Consistent ∧ (app.handle ev).2.any isStartError = false := by
  have hstop := app_stop_consistent app h
  cases ev with
  | clickStartRecord now =>
    cases hs : app.Started with
    | false =>
      have hst := app_start_consistent app now h
      simp only [StatusBarApp.handle, hs, Bool.not_false, if_true]
      exact ⟨hst.1, (hst.2 hs).2.2⟩
    | true => simpa [StatusBarApp.handle, hs] using h
  | clickStopRecord =>
    cases hs : app.Started with
    | false => simpa [StatusBarApp.handle, hs] using h
    | true =>
      simp only [StatusBarApp.handle, hs, if_true]
      exact ⟨hstop.1, hstop.2.2.2⟩
  | clickQuit =>
    cases hs : app.Started with
    | false => simpa [StatusBarApp.handle, hs] using h
    | true =>
      simp only [StatusBarApp.handle, hs, if_true]
      exact ⟨hstop.1, hstop.2.2.2⟩
  | timerFired => exact ⟨hstop.1, hstop.2.2.2⟩
  | toggle now =>
    cases hs : app.Started with
    | false =>
      have hst := app_start_consistent app now h
      simp only [StatusBarApp.handle, StatusBarApp.Toggle, hs, Bool.false_eq_true, if_false]
      exact ⟨hst.1, (hst.2 hs).2.2⟩
    | true =>
      simp only [StatusBarApp.handle, StatusBarApp.Toggle, hs, if_true]
      exact ⟨hstop.1, hstop.2.2.2⟩

/-- Every sequence of events keeps the invariant and never reaches the error
branch of `StatusBarApp.Start`. -/
theorem app_run_consistent (events : List AppEvent) :
    ∀ app : StatusBarApp, app.Consistent →
      (app.run events).1.Consistent ∧ (app.run events).2.any isStartError = false := by
  induction events with
  | nil => intro app h; exact ⟨h, rfl⟩
  | cons ev rest ih =>
    intro app h
    have hstep := app_handle_consistent app ev h
    have htail := ih _ hstep.1
    simp only [StatusBarApp.run, List.any_append, hstep.2, htail.2, Bool.or_self]
    exact ⟨htail.1, trivial⟩

/-- `Toggle` under the invariant: the invariant is kept, `Started` is negated and
the error branch of `StatusBarApp.Start` is not reached. -/
theorem app_toggle_consistent (app : StatusBarApp) (now : Time) (h : app.Consistent) :
    (app.Toggle now).1.Consistent ∧ (app.Toggle now).1.Started = !app.Started ∧
    (app.Toggle now).2.any isStartError = false := by
  cases hs : app.Started with
  | false =>
    have hst := app_start_consistent app now h
    simp only [StatusBarApp.Toggle, hs, Bool.false_eq_true, if_false, Bool.not_false]
    exact ⟨hst.1, (hst.2 hs).1, (hst.2 hs).2.2⟩
  | true =>
    have hstop := app_stop_consistent app h
    simp only [StatusBarApp.Toggle, hs, if_true, Bool.not_true]
    exact ⟨hstop.1, hstop.2.1, hstop.2.2.2⟩

/-- C13, as stated, fails: on an app in the middle of a recording, which
satisfies the invariant, `StatusBarApp.Start` reaches the "recording already in
progress" branch of `Recorder.Start`, logs the error and stops the recording. -/
theorem start_error_branch_counterexample :
    sampleStartedApp.Started = sampleStartedApp.Recorder.Recording ∧
    (sampleStartedApp.Recorder.Start sampleStartedApp.CurrentLanguage).2.1
      = some "recording already in progress" ∧
    (sampleStartedApp.Start 0).2.any isStartError = true ∧
    (sampleStartedApp.Start 0).1.Started = false ∧
    (sampleStartedApp.Start 0).1.Recorder.Recording = false ∧
    ¬ ((sampleStartedApp.Start 0).2.any isStartError = false) := by
  refine ⟨rfl, rfl, rfl, rfl, rfl, ?_⟩
  intro h
  have h1 : (sampleStartedApp.Start 0).2.any isStartError = true := rfl
  rw [h1] at h
  cases h

/-- C13, amended: one call at a time, `StatusBarApp.Start`, `Stop` and `Toggle`
each preserve the invariant `app.Started = recorder.Recording`; under the
invariant `Toggle` negates `Started`, two consecutive `Toggle`s restore the pair
(`Started`, `Recording`), and the "recording already in progress" branch of
`Recorder.Start` is not reached from `StatusBarApp.Start` when it is called with
`Started` false, which is how `Toggle` and the menu call it: it is reached in
no `Toggle` and in no sequence of menu clicks, timer expiries and toggles. -/
theorem started_tracks_recording (app : StatusBarApp) (now : Time)
    (h : app.Started = app.Recorder.Recording) :
    (app.Start now).1.Started = (app.Start now).1.Recorder.Recording ∧
    app.Stop.1.Started = app.Stop.1.Recorder.Recording ∧
    (app.Toggle now).1.Started = (app.Toggle now).1.Recorder.Recording ∧
    (app.Toggle now).1.Started = !app.Started ∧
    (∀ later : Time,
      ((app.Toggle now).1.Toggle later).1.Started = app.Started ∧
      ((app.Toggle now).1.Toggle later).1.Recorder.Recording = app.Recorder.Recording) ∧
    (app.Toggle now).2.any isStartError = false ∧
    (app.Started = false → (app.Start now).2.any isStartError = false) ∧
    (∀ events : List AppEvent,
      (app.run events).1.Started = (app.run events).1.Recorder.Recording ∧
      (app.run events).2.any isStartError = false) := by
  have hc : app.Consistent := h
  have ht := app_toggle_consistent app now hc
  refine ⟨(app_start_consistent app now hc).1, (app_stop_consistent app hc).1, ht.1, ht.2.1,
    ?_, ht.2.2, fun hs => ((app_start_consistent app now hc).2 hs).2.2,
    fun events => app_run_consistent events app hc⟩
  intro later
  have ht2 := app_toggle_consistent (app.Toggle now).1 later ht.1
  have hstarted : ((app.Toggle now).1.Toggle later).1.Started = app.Started := by
    rw [ht2.2.1, ht.2.1, Bool.not_not]
  refine ⟨hstarted, ?_⟩
  have h2 : ((app.Toggle now).1.Toggle later).1.Started
      = ((app.Toggle now).1.Toggle later).1.Recorder.Recording := ht2.1
  rw [← h2, hstarted, h]

theorem started_tracks_recording_witness :
    sampleApp.Started = sampleApp.Recorder.Recording ∧
    (sampleApp.Toggle 0).1.Started = true ∧
    ((sampleApp.Start 0).1.Started = (sampleApp.Start 0).1.Recorder.Recording ∧
    sampleApp.Stop.1.Started = sampleApp.Stop.1.Recorder.Recording ∧
    (sampleApp.Toggle 0).1.Started = (sampleApp.Toggle 0).1.Recorder.Recording ∧
    (sampleApp.Toggle 0).1.Started = !sampleApp.Started ∧
    (∀ later : Time,
      ((sampleApp.Toggle 0).1.Toggle later).1.Started = sampleApp.Started ∧
      ((sampleApp.Toggle 0).1.Toggle later).1.Recorder.Recording
        = sampleApp.Recorder.Recording) ∧
    (sampleApp.Toggle 0).2.any isStartError = false ∧
    (sampleApp.Started = false → (sampleApp.Start 0).2.any isStartError = false) ∧
    (∀ events : List AppEvent,
      (sampleApp.run events).1.Started = (sampleApp.run events).1.Recorder.Recording ∧
      (sampleApp.run events).2.any isStartError = false)) :=
  ⟨rfl, rfl, started_tracks_recording sampleApp 0 rfl⟩

/-- `Start` called with `Started` already true (no call site does this: the menu
and `Toggle` test `Started` first) takes the error branch and ends stopped. -/
theorem app_start_while_started (app : StatusBarApp) (now : Time) (h : app.Consistent)
    (hs : app.Started = true) :
    (app.Start now).2.any isStartError = true ∧ (app.Start now).1.Started = false ∧
    (app.Start now).1.Recorder.Recording = false := by
  unfold StatusBarApp.Consistent at h
  rw [hs] at h
  cases ht : app.Timer <;>
    simp [StatusBarApp.Start, StatusBarApp.Stop, GladiaRecorder.Start, GladiaRecorder.Stop,
      ← h, ht, isStartError]

/-- The effects of `Toggle` itself hold no call of `Toggle`. -/
theorem toggleCalls_toggle (app : StatusBarApp) (now : Time) :
    toggleCalls (app.Toggle now).2 = 0 := by
  unfold toggleCalls
  cases hs : app.Started <;> cases hr : app.Recorder.Recording <;> cases ht : app.Timer <;>
    by_cases hm : app.MaxTime > 0 <;>
    simp [StatusBarApp.Toggle, StatusBarApp.Start, StatusBarApp.Stop, GladiaRecorder.Start,
      GladiaRecorder.Stop, hs, hr, ht, hm, isToggleCall, List.countP_cons, List.countP_append]

/-- A call of `Toggle` by the listener counts once, changes the app by `Toggle`
and leaves the keys as they are. -/
theorem toggleApp_spec (l : KeyListener) (now : Time) :
    toggleCalls (l.toggleApp now).2 = 1 ∧
    (l.toggleApp now).1.App = (l.App.Toggle now).1 ∧
    (l.toggleApp now).1.KeysPressed = l.KeysPressed ∧
    (l.toggleApp now).1.KeyCombination = l.KeyCombination := by
  refine ⟨?_, rfl, rfl, rfl⟩
  have h0 := toggleCalls_toggle l.App now
  unfold toggleCalls at h0 ⊢
  simp [KeyListener.toggleApp, List.countP_cons, isToggleCall, h0]

/-- In key-combination mode `handleKeyDown` marks the key pressed and changes no
other key. -/
theorem handleKeyDown_keys (l : KeyListener) (keyCode : Int) (now : Time)
    (hmode : l.DoubleCmd = false) :
    (l.handleKeyDown keyCode now).1.KeysPressed
      = fun k => if k = keyCode then true else l.KeysPressed k := by
  simp only [KeyListener.handleKeyDown, hmode, Bool.false_eq_true, if_false]
  split_ifs <;> rfl

/-- In key-combination mode, when 56 and 3675 are pressed after the key went
down and the combination is [56, 3675], `handleKeyDown` is two calls of
`Toggle` in a row: on the app, and in the effects. -/
theorem handleKeyDown_double (l : KeyListener) (keyCode : Int) (now : Time)
    (hmode : l.DoubleCmd = false)
    (hcombo : l.KeyCombination = [56, 3675] ∨ l.KeyCombination = [])
    (h56 : (if (56 : Int) = keyCode then true else l.KeysPressed 56) = true)
    (h3675 : (if (3675 : Int) = keyCode then true else l.KeysPressed 3675) = true) :
    (l.handleKeyDown keyCode now).1.App = ((l.App.Toggle now).1.Toggle now).1 ∧
    (l.handleKeyDown keyCode now).2
      = AppEffect.callToggle :: (l.App.Toggle now).2 ++
        AppEffect.callToggle :: ((l.App.Toggle now).1.Toggle now).2 := by
  rcases hcombo with hcombo | hcombo <;>
    simp only [KeyListener.handleKeyDown, hmode, Bool.false_eq_true, if_false, h56, h3675,
      Bool.and_self, if_true, KeyListener.toggleApp, hcombo, List.all_cons, List.all_nil,
      Bool.and_true, List.cons_append, and_self]

/-- In key-combination mode with the empty key list, when 56 and 3675 are not
both pressed after the key went down, `handleKeyDown` is one call of `Toggle`. -/
theorem handleKeyDown_single (l : KeyListener) (keyCode : Int) (now : Time)
    (hmode : l.DoubleCmd = false) (hcombo : l.KeyCombination = [])
    (hnot : ((if (56 : Int) = keyCode then true else l.KeysPressed 56) &&
      (if (3675 : Int) = keyCode then true else l.KeysPressed 3675)) = false) :
    (l.handleKeyDown keyCode now).1.App = (l.App.Toggle now).1 ∧
    (l.handleKeyDown keyCode now).2 = AppEffect.callToggle :: (l.App.Toggle now).2 := by
  simp only [KeyListener.handleKeyDown, hmode, Bool.false_eq_true, if_false, hnot,
    KeyListener.toggleApp, hcombo, List.all_nil, if_true, List.nil_append, and_self]

/-- Under the invariant a `Toggle` of a stopped app launches `startRecording`, a
`Toggle` of a started app sends on `Done`, and neither changes the language. -/
theorem app_toggle_effect (app : StatusBarApp) (now : Time) (h : app.Consistent) :
    (app.Started = false →
      AppEffect.recorder (.goStartRecording app.CurrentLanguage) ∈ (app.Toggle now).2) ∧
    (app.Started = true → AppEffect.recorder (.sendDone true) ∈ (app.Toggle now).2) ∧
    (app.Toggle now).1.CurrentLanguage = app.CurrentLanguage := by
  unfold StatusBarApp.Consistent at h
  cases hs : app.Started with
  | false =>
    rw [hs] at h
    by_cases hm : app.MaxTime > 0 <;>
      simp [StatusBarApp.Toggle, StatusBarApp.Start, GladiaRecorder.Start, hs, ← h, hm]
  | true =>
    rw [hs] at h
    cases ht : app.Timer <;>
      simp [StatusBarApp.Toggle, StatusBarApp.Stop, GladiaRecorder.Stop, hs, ← h, ht]


/-- C14: in key-combination mode with the default combination "cmd_l+alt" (which
parses to [56, 3675]), a `handleKeyDown` call after which 56 and 3675 are both
marked pressed calls `App.Toggle` exactly twice, once by the hard-coded check
and once by the all-keys-pressed check: its effects are those of a `Toggle`
followed by those of a second `Toggle`, and it leaves the app as the two
toggles leave it.  With the app's `Started` flag agreeing with the recorder's
`Recording` flag before the call (C13), the first toggle negates `Started`, one
of the two launches `startRecording` and the other sends on `Done`, and
`Started` and `Recording` after the call are what they were before it.  With a
combination that parses to the empty key list every `handleKeyDown` call calls
`Toggle`: once, or twice when 56 and 3675 are both pressed. -/
theorem default_combination_toggles_twice (l : KeyListener) (keyCode : Int) (now : Time)
    (hmode : l.DoubleCmd = false)
    (hcombo : l.KeyCombination = parseKeyCombination "cmd_l+alt")
    (hpressed : (l.handleKeyDown keyCode now).1.KeysPressed 56 = true ∧
      (l.handleKeyDown keyCode now).1.KeysPressed 3675 = true)
    (hinv : l.App.Started = l.App.Recorder.Recording) :
    parseKeyCombination "cmd_l+alt" = [56, 3675] ∧
    (l.handleKeyDown keyCode now).2
      = AppEffect.callToggle :: (l.App.Toggle now).2 ++
        AppEffect.callToggle :: ((l.App.Toggle now).1.Toggle now).2 ∧
    (l.handleKeyDown keyCode now).1.App = ((l.App.Toggle now).1.Toggle now).1 ∧
    toggleCalls (l.handleKeyDown keyCode now).2 = 2 ∧
    (l.App.Toggle now).1.Started = !l.App.Started ∧
    AppEffect.recorder (.goStartRecording l.App.CurrentLanguage)
      ∈ (l.handleKeyDown keyCode now).2 ∧
    AppEffect.recorder (.sendDone true) ∈ (l.handleKeyDown keyCode now).2 ∧
    (l.handleKeyDown keyCode now).1.App.Started = l.App.Started ∧
    (l.handleKeyDown keyCode now).1.App.Recorder.Recording = l.App.Recorder.Recording ∧
    (∀ (l2 : KeyListener) (k : Int) (t : Time), l2.DoubleCmd = false →
      l2.KeyCombination = [] →
      1 ≤ toggleCalls (l2.handleKeyDown k t).2 ∧
      (((l2.handleKeyDown k t).1.App = (l2.App.Toggle t).1 ∧
          (l2.handleKeyDown k t).2 = AppEffect.callToggle :: (l2.App.Toggle t).2) ∨
       ((l2.handleKeyDown k t).1.App = ((l2.App.Toggle t).1.Toggle t).1 ∧
          (l2.handleKeyDown k t).2
            = AppEffect.callToggle :: (l2.App.Toggle t).2 ++
              AppEffect.callToggle :: ((l2.App.Toggle t).1.Toggle t).2))) ∧
    parseKeyCombination "" = [] ∧
    parseKeyCombination "left_cmd+option" = [] := by
  have hparse : parseKeyCombination "cmd_l+alt" = [56, 3675] := by decide
  rw [hparse] at hcombo
  rw [handleKeyDown_keys l keyCode now hmode] at hpressed
  have hd := handleKeyDown_double l keyCode now hmode (Or.inl hcombo) hpressed.1 hpressed.2
  have ht1 := app_toggle_consistent l.App now hinv
  have ht2 := app_toggle_consistent (l.App.Toggle now).1 now ht1.1
  have he1 := app_toggle_effect l.App now hinv
  have he2 := app_toggle_effect (l.App.Toggle now).1 now ht1.1
  have hstarted : ((l.App.Toggle now).1.Toggle now).1.Started = l.App.Started := by
    rw [ht2.2.1, ht1.2.1, Bool.not_not]
  have hrec : ((l.App.Toggle now).1.Toggle now).1.Recorder.Recording
      = l.App.Recorder.Recording := by
    have h2 : ((l.App.Toggle now).1.Toggle now).1.Started
        = ((l.App.Toggle now).1.Toggle now).1.Recorder.Recording := ht2.1
    rw [← h2, hstarted, hinv]
  have hcount : toggleCalls (l.handleKeyDown keyCode now).2 = 2 := by
    have hc1 := toggleCalls_toggle l.App now
    have hc2 := toggleCalls_toggle (l.App.Toggle now).1 now
    unfold toggleCalls at hc1 hc2 ⊢
    rw [hd.2]
    simp [List.countP_cons, List.countP_append, isToggleCall, hc1, hc2]
  have hmem : AppEffect.recorder (.goStartRecording l.App.CurrentLanguage)
        ∈ (l.handleKeyDown keyCode now).2 ∧
      AppEffect.recorder (.sendDone true) ∈ (l.handleKeyDown keyCode now).2 := by
    rw [hd.2]
    cases hs : l.App.Started with
    | false =>
      have hs2 : (l.App.Toggle now).1.Started = true := by rw [ht1.2.1, hs]; rfl
      have m1 := he1.1 hs
      have m2 := he2.2.1 hs2
      simp [m1, m2]
    | true =>
      have hs2 : (l.App.Toggle now).1.Started = false := by rw [ht1.2.1, hs]; rfl
      have m1 := he1.2.1 hs
      have m2 := he2.1 hs2
      rw [he1.2.2] at m2
      simp [m1, m2]
  refine ⟨hparse, hd.2, hd.1, hcount, ht1.2.1, hmem.1, hmem.2, ?_, ?_, ?_,
    by decide, by decide⟩
  · rw [hd.1, hstarted]
  · rw [hd.1, hrec]
  · intro l2 k t h1 h2
    cases hb : ((if (56 : Int) = k then true else l2.KeysPressed 56) &&
        (if (3675 : Int) = k then true else l2.KeysPressed 3675)) with
    | true =>
      have hb2 := Bool.and_eq_true_iff.mp hb
      have hdd := handleKeyDown_double l2 k t h1 (Or.inr h2) hb2.1 hb2.2
      refine ⟨?_, Or.inr hdd⟩
      unfold toggleCalls
      rw [hdd.2]
      simp only [List.countP_cons, List.countP_append, isToggleCall]
      exact Nat.succ_le_succ (Nat.zero_le _)
    | false =>
      have hss := handleKeyDown_single l2 k t h1 h2 hb
      refine ⟨?_, Or.inl hss⟩
      unfold toggleCalls
      rw [hss.2]
      simp only [List.countP_cons, isToggleCall]
      exact Nat.succ_le_succ (Nat.zero_le _)

theorem default_combination_toggles_twice_witness :
    sampleListener.DoubleCmd = false ∧
    sampleListener.KeyCombination = parseKeyCombination "cmd_l+alt" ∧
    ((sampleListener.handleKeyDown 3675 0).1.KeysPressed 56 = true ∧
      (sampleListener.handleKeyDown 3675 0).1.KeysPressed 3675 = true) ∧
    sampleListener.App.Started = sampleListener.App.Recorder.Recording ∧
    toggleCalls (sampleListener.handleKeyDown 3675 0).2 = 2 ∧
    AppEffect.recorder (.goStartRecording "en") ∈ (sampleListener.handleKeyDown 3675 0).2 ∧
    AppEffect.recorder (.sendDone true) ∈ (sampleListener.handleKeyDown 3675 0).2 ∧
    (sampleListener.handleKeyDown 3675 0).1.App.Started = false :=
  have hp : (sampleListener.handleKeyDown 3675 0).1.KeysPressed 56 = true ∧
      (sampleListener.handleKeyDown 3675 0).1.KeysPressed 3675 = true := by
    rw [handleKeyDown_keys sampleListener 3675 0 rfl]
    exact ⟨rfl, rfl⟩
  have h := default_combination_toggles_twice sampleListener 3675 0 rfl rfl hp rfl
  ⟨rfl, rfl, hp, rfl, h.2.2.2.1, h.2.2.2.2.2.1, h.2.2.2.2.2.2.1, h.2.2.2.2.2.2.2.1⟩

/-! ## Theorems: the decoders at their edges -/

set_option exponentiation.threshold 2000 in
/-- A message shaped as a final transcript that holds a number out of the range
of `float64` is not accepted by `json.Unmarshal`: the receive loop logs a parse
error and leaves the recorder as it is, and the message is no final fragment. -/
theorem receiveStep_number_out_of_range :
    unmarshalMap outOfRangeTranscript = .error .unmarshalTypeError ∧
    (sampleRecording.receiveStep outOfRangeTranscript).1.CurrentText
      = sampleRecording.CurrentText ∧
    (sampleRecording.receiveStep outOfRangeTranscript).2 = [.errorParsingMessage] ∧
    ¬ ∃ t, IsFinalFragment outOfRangeTranscript t := by
  have hu : unmarshalMap outOfRangeTranscript = .error .unmarshalTypeError := by rfl
  refine ⟨hu, ?_, ?_, ?_⟩
  · simp [GladiaRecorder.receiveStep, hu]
  · simp [GladiaRecorder.receiveStep, hu]
  · rintro ⟨t, content, data, utterance, hm, _⟩
    rw [hu] at hm
    cases hm

set_option exponentiation.threshold 2000 in
/-- A negotiation response that holds a number out of the range of `float64`
fails to decode, so the start fails although the response has a `url`. -/
theorem negotiation_number_out_of_range :
    AudioTranscriptionService.InitializeSession { APIKey := "key" } outOfRangeNetwork "en"
      = .error (.decode .unmarshalTypeError) ∧
    StartFails sampleIdle outOfRangeNetwork "en" := by
  have hi : AudioTranscriptionService.InitializeSession { APIKey := "key" } outOfRangeNetwork
      "en" = .error (.decode .unmarshalTypeError) := by rfl
  exact ⟨hi, Or.inl ⟨_, hi⟩⟩

/-- What follows the first JSON value of the negotiation response is not read:
the recorder dials the `url` and keeps the connection. -/
theorem negotiation_ignores_trailing_bytes :
    ((sampleIdle.Start "en").1.startRecordingConnect trailingBytesNetwork "en").1.WebSocket.isSome
      = true ∧
    ((sampleIdle.Start "en").1.startRecordingConnect trailingBytesNetwork "en").2.2.isSome
      = true ∧
    ¬ StartFails sampleIdle trailingBytesNetwork "en" := by
  have hi : AudioTranscriptionService.InitializeSession { APIKey := sampleIdle.APIKey }
      trailingBytesNetwork "en" = .ok [("url", .str "ws://x")] := by rfl
  refine ⟨rfl, rfl, ?_⟩
  rintro (⟨e, he⟩ | ⟨info, hinfo, hno⟩ | ⟨info, u, msg, hinfo, hu, hd⟩)
  · rw [hi] at he
    cases he
  · rw [hi] at hinfo
    cases hinfo
    exact hno "ws://x" rfl
  · rw [hi] at hinfo
    cases hinfo
    have hu1 : u = "ws://x" := by
      have h1 : GoMap.index [("url", Json.str "ws://x")] "url" = some (.str "ws://x") := rfl
      rw [h1] at hu
      cases hu
      rfl
    subst hu1
    cases hd

/-- Only the statuses 200 and 201 are accepted by `InitializeSession`: a 202
response is an error. -/
theorem negotiation_rejects_202 :
    AudioTranscriptionService.InitializeSession { APIKey := "key" } acceptedStatusNetwork "en"
      = .error (.badStatus 202) := by
  rfl

/-- A run of the audio goroutine in which the chunk is written, `Recording` is
then found false and the `stop_recording` write fails: `typeText` is launched and
no `stop_recording` has been written. -/
theorem audio_run_stop_write_fails :
    (audioGoroutine .ready sampleConn [.chunk [1, -2] false] true).conn.sent
      = [Frame.text (audioChunkMessage [1, -2])] ∧
    (audioGoroutine .ready sampleConn [.chunk [1, -2] false] true).typeTextLaunched = true ∧
    (audioGoroutine .ready sampleConn [.chunk [1, -2] false] false).conn.sent
      = [Frame.text (audioChunkMessage [1, -2]), Frame.text stopRecordingMessage] :=
  ⟨rfl, rfl, rfl⟩

end GladiaSamples
